import Mathlib

/-! # Datadog.Trace.ClrProfiler.Native: metadata resolution and integration filtering

A shallow embedding of `clr_helpers.cpp` (the token identity resolvers, the
assembly-reference lookup and the two integration catalog filters), of the
module metadata cache declared in `cor_profiler.h` and of the reference
counting of `class_factory.cpp`, together with theorems about them.

Conventions of the embedding

* `std::wstring` is a list of code units (`WSTRING = List Nat`); a name buffer
  `std::wstring name(kNameMaxSize, 0)` is the list of `kNameMaxSize` zeros.
* `unsigned long` is a natural number below `2 ^ 32` (`ULONG`); the one
  arithmetic operation of the file, `name_len - 1`, is the wrapping subtraction
  `ULONG_sub`.
* `HRESULT` is an integer and `FAILED(hr)` is `hr < 0`.
* The runtime interfaces (`ICorProfilerInfo3`, `IMetaDataImport`,
  `IMetaDataAssemblyImport`) are records of functions: a call maps its input
  arguments to the status it returns and the values its out-parameters hold
  afterwards.  An out-parameter the call leaves untouched holds the value the
  caller initialised it with (`0`, `mdTokenNil`, nothing written to the buffer).
* `kNameMaxSize` is declared in `clr_helpers.h`, which is not among the sources;
  every resolver takes it as its first argument.
* `GetFunctionInfo` and `GetTypeInfo` call each other; the embedding gives them a
  recursion budget (`none` = budget exhausted) and returns, next to the record,
  the metadata queries issued, in order.
* The bodies of the `CorProfiler` callbacks (`cor_profiler.cpp`) are not among
  the sources; they are modelled from the specification, sequentially, as
  state-passing functions.
* `int` is an integer with two's complement wrap-around (`INT_wrap`).
-/

namespace trace

/-! ## Basic types -/

/-- Wide string: the sequence of its code units. -/
abbrev WSTRING := List Nat

/-- Code units of a string literal, for writing names in examples. -/
def wstr (s : String) : WSTRING := s.toList.map Char.toNat

abbrev HRESULT := Int
abbrev mdToken := Nat
abbrev mdAssemblyRef := Nat
abbrev AssemblyID := Nat
abbrev ModuleID := Nat

/-- An `unsigned long` value, as a length out-parameter holds it. -/
abbrev ULONG := Fin 4294967296

/-- The macro `FAILED(hr)`: a negative status. -/
def FAILED (hr : HRESULT) : Bool := decide (hr < 0)

/-- Number of values of an `unsigned long`. -/
def ULONG_RANGE : Nat := 4294967296

/-- The cast `(unsigned long)(n)`. -/
def ULONG_cast (n : Nat) : Nat := n % ULONG_RANGE

/-- Subtraction of `unsigned long` values, wrapping modulo `2 ^ 32`. -/
def ULONG_sub (a b : Nat) : Nat := (a + (ULONG_RANGE - b % ULONG_RANGE)) % ULONG_RANGE

/-- The member `std::wstring::substr(pos, count)` for `pos` within the string. -/
def substr (s : WSTRING) (pos count : Nat) : WSTRING := (s.drop pos).take count

/-- The state of a buffer `std::wstring name(size, 0)` after a call wrote the
code units `written` from its start; a call never writes past the capacity
it is given. -/
def fillBuffer (size : Nat) (written : WSTRING) : WSTRING :=
  (written ++ List.replicate (size - written.length) 0).take size

/-! ### Token kinds (`corhdr.h`) -/

def mdtModuleRef : Nat := 0x1a000000
def mdtTypeRef : Nat := 0x01000000
def mdtTypeDef : Nat := 0x02000000
def mdtMethodDef : Nat := 0x06000000
def mdtMemberRef : Nat := 0x0a000000
def mdtTypeSpec : Nat := 0x1b000000
def mdtAssemblyRef : Nat := 0x23000000

def mdTokenNil : mdToken := 0
def mdAssemblyRefNil : mdAssemblyRef := mdtAssemblyRef

/-- The macro `TypeFromToken(tk)`: `tk & 0xff000000`, on 32-bit tokens the
value with its low 24 bits cleared. -/
def TypeFromToken (tk : mdToken) : Nat := (tk % 4294967296) / 16777216 * 16777216

/-! ## Identity records (`clr_helpers.h`) -/

/-- Modelled from the spec: `AssemblyInfo` of `clr_helpers.h`, `{id, name}`. -/
structure AssemblyInfo where
  id : AssemblyID
  name : WSTRING
  deriving DecidableEq, Repr

/-- The value-initialised record `{}`. -/
instance : Inhabited AssemblyInfo := ⟨⟨0, []⟩⟩

/-- Modelled from the spec: `ModuleInfo` of `clr_helpers.h`,
`{id, file_path, owning AssemblyInfo, flags}`. -/
structure ModuleInfo where
  id : ModuleID
  path : WSTRING
  assembly : AssemblyInfo
  flags : Nat
  deriving DecidableEq, Repr

instance : Inhabited ModuleInfo := ⟨⟨0, [], default, 0⟩⟩

/-- Modelled from the spec: `TypeInfo` of `clr_helpers.h`, `{token, name}`. -/
structure TypeInfo where
  id : mdToken
  name : WSTRING
  deriving DecidableEq, Repr

instance : Inhabited TypeInfo := ⟨⟨0, []⟩⟩

/-- Modelled from the spec: `FunctionInfo` of `clr_helpers.h`,
`{token, name, owning TypeInfo}`; the source reads the field `type`. -/
structure FunctionInfo where
  id : mdToken
  name : WSTRING
  type : TypeInfo
  deriving DecidableEq, Repr

instance : Inhabited FunctionInfo := ⟨⟨0, [], default⟩⟩

/-! ## Integration catalog (`integration.h`) -/

/-- Modelled from the spec: the assembly part of a method constraint of
`integration.h`; an empty name is the wildcard. -/
structure AssemblyReference where
  name : WSTRING
  deriving DecidableEq, Repr

/-- Modelled from the spec: a method constraint (assembly/type/method). -/
structure MethodReference where
  assembly : AssemblyReference
  type_name : WSTRING
  method_name : WSTRING
  deriving DecidableEq, Repr

/-- Modelled from the spec: one replacement rule,
`{caller_method, target_method, descriptor}`. -/
structure MethodReplacement where
  caller_method : MethodReference
  target_method : MethodReference
  wrapper_method : MethodReference
  deriving DecidableEq, Repr

/-- Modelled from the spec: `Integration` of `integration.h`,
`{name, ordered sequence of MethodReplacement rules}`. -/
structure Integration where
  integration_name : WSTRING
  method_replacements : List MethodReplacement
  deriving DecidableEq, Repr

/-! ## Runtime interfaces -/

/-- Outcome of a name query: the status, the code units written to the buffer
and the value left in the length out-parameter. -/
structure NameProps where
  hr : HRESULT
  written : WSTRING
  name_len : ULONG
  deriving DecidableEq, Repr

/-- Outcome of a name query that also reports a parent token. -/
structure MemberProps where
  hr : HRESULT
  parent_token : mdToken
  written : WSTRING
  name_len : ULONG
  deriving DecidableEq, Repr

/-- Outcome of `GetModuleInfo2`. -/
structure ModuleProps where
  hr : HRESULT
  written : WSTRING
  path_len : ULONG
  assembly_id : AssemblyID
  module_flags : Nat
  deriving DecidableEq, Repr

/-- The part of `ICorProfilerInfo3` the resolvers call; the `Nat` argument is
the buffer capacity passed to the call. -/
structure ICorProfilerInfo3 where
  GetAssemblyInfo : AssemblyID → Nat → NameProps
  GetModuleInfo2 : ModuleID → Nat → ModuleProps

/-- The part of `IMetaDataImport` the resolvers call. -/
structure IMetaDataImport where
  GetMemberRefProps : mdToken → Nat → MemberProps
  GetMemberProps : mdToken → Nat → MemberProps
  GetTypeDefProps : mdToken → Nat → NameProps
  GetTypeRefProps : mdToken → Nat → MemberProps
  GetModuleRefProps : mdToken → Nat → NameProps

/-- The part of `IMetaDataAssemblyImport` the helpers call. -/
structure IMetaDataAssemblyImport where
  GetAssemblyRefProps : mdAssemblyRef → Nat → NameProps
  /-- Modelled from the spec: `EnumAssemblyRefs` of `clr_helpers.h` is a
  finite, restartable enumeration in the native order of the module. -/
  EnumAssemblyRefs : List mdAssemblyRef

/-- Modelled from the spec: the helper `EnumAssemblyRefs(assembly_import)` of
`clr_helpers.h`, which is not among the sources: each call walks the reference
table of the module afresh, in its native order. -/
def EnumAssemblyRefs (assembly_import : IMetaDataAssemblyImport) : List mdAssemblyRef :=
  assembly_import.EnumAssemblyRefs

/-- A metadata query issued against `IMetaDataImport`. -/
inductive Query where
  | GetMemberRefProps (token : mdToken)
  | GetMemberProps (token : mdToken)
  | GetTypeDefProps (token : mdToken)
  | GetTypeRefProps (token : mdToken)
  | GetModuleRefProps (token : mdToken)
  deriving DecidableEq, Repr

/-! ## `clr_helpers.cpp` -/

/-- `GetAssemblyInfo(info, assembly_id)`. -/
def GetAssemblyInfo (kNameMaxSize : Nat) (info : ICorProfilerInfo3)
    (assembly_id : AssemblyID) : AssemblyInfo :=
  let r := info.GetAssemblyInfo assembly_id (ULONG_cast kNameMaxSize)
  let name := fillBuffer kNameMaxSize r.written
  let name_len := r.name_len.val
  if FAILED r.hr || name_len == 0 then
    default
  else
    let name := substr name 0 (ULONG_sub name_len 1)
    { id := assembly_id, name := name }

/-- `GetAssemblyName(assembly_import, assembly_ref)`. -/
def GetAssemblyName (kNameMaxSize : Nat) (assembly_import : IMetaDataAssemblyImport)
    (assembly_ref : mdAssemblyRef) : WSTRING :=
  let r := assembly_import.GetAssemblyRefProps assembly_ref (ULONG_cast kNameMaxSize)
  let name := fillBuffer kNameMaxSize r.written
  let name_len := r.name_len.val
  if FAILED r.hr || name_len == 0 then
    []
  else
    substr name 0 (ULONG_sub name_len 1)

/-- The locals of `GetFunctionInfo` / `GetTypeInfo` after the `switch`. -/
structure Locals where
  hr : HRESULT
  parent_token : mdToken
  name : WSTRING
  name_len : Nat
  queries : List Query

/-- The locals as initialised before the `switch`:
`hr = -1`, `parent_token = mdTokenNil`, a zeroed buffer, length 0. -/
def Locals.init (kNameMaxSize : Nat) : Locals :=
  { hr := -1, parent_token := mdTokenNil, name := List.replicate kNameMaxSize 0,
    name_len := 0, queries := [] }

mutual

/-- `GetFunctionInfo(metadata_import, token)`, with a recursion budget. -/
def GetFunctionInfo (kNameMaxSize : Nat) (metadata_import : IMetaDataImport) :
    Nat → mdToken → Option (FunctionInfo × List Query)
  | 0, _ => none
  | fuel + 1, token =>
    let s0 := Locals.init kNameMaxSize
    let s : Locals :=
      if TypeFromToken token = mdtMemberRef then
        let r := metadata_import.GetMemberRefProps token (ULONG_cast kNameMaxSize)
        { hr := r.hr, parent_token := r.parent_token,
          name := fillBuffer kNameMaxSize r.written, name_len := r.name_len.val,
          queries := [Query.GetMemberRefProps token] }
      else if TypeFromToken token = mdtMethodDef then
        let r := metadata_import.GetMemberProps token (ULONG_cast kNameMaxSize)
        { hr := r.hr, parent_token := r.parent_token,
          name := fillBuffer kNameMaxSize r.written, name_len := r.name_len.val,
          queries := [Query.GetMemberProps token] }
      else s0
    if FAILED s.hr || s.name_len == 0 then
      some (default, s.queries)
    else
      let function_name := substr s.name 0 (ULONG_sub s.name_len 1)
      match GetTypeInfo kNameMaxSize metadata_import fuel s.parent_token with
      | none => none
      | some (type, qs) =>
        some ({ id := token, name := function_name, type := type }, s.queries ++ qs)

/-- `GetTypeInfo(metadata_import, token)`, with a recursion budget. -/
def GetTypeInfo (kNameMaxSize : Nat) (metadata_import : IMetaDataImport) :
    Nat → mdToken → Option (TypeInfo × List Query)
  | 0, _ => none
  | fuel + 1, token =>
    let s0 := Locals.init kNameMaxSize
    if TypeFromToken token = mdtMemberRef then
      (GetFunctionInfo kNameMaxSize metadata_import fuel token).map
        (fun p => (p.1.type, p.2))
    else if TypeFromToken token = mdtMethodDef then
      (GetFunctionInfo kNameMaxSize metadata_import fuel token).map
        (fun p => (p.1.type, p.2))
    else
      let s : Locals :=
        if TypeFromToken token = mdtTypeDef then
          let r := metadata_import.GetTypeDefProps token (ULONG_cast kNameMaxSize)
          { s0 with hr := r.hr, name := fillBuffer kNameMaxSize r.written,
                    name_len := r.name_len.val, queries := [Query.GetTypeDefProps token] }
        else if TypeFromToken token = mdtTypeRef then
          let r := metadata_import.GetTypeRefProps token (ULONG_cast kNameMaxSize)
          { hr := r.hr, parent_token := r.parent_token,
            name := fillBuffer kNameMaxSize r.written, name_len := r.name_len.val,
            queries := [Query.GetTypeRefProps token] }
        else if TypeFromToken token = mdtTypeSpec then
          s0
        else if TypeFromToken token = mdtModuleRef then
          let r := metadata_import.GetModuleRefProps token (ULONG_cast kNameMaxSize)
          { s0 with name := fillBuffer kNameMaxSize r.written, name_len := r.name_len.val,
                    queries := [Query.GetModuleRefProps token] }
        else s0
      if FAILED s.hr || s.name_len == 0 then
        some (default, s.queries)
      else
        let type_name := substr s.name 0 (ULONG_sub s.name_len 1)
        some ({ id := token, name := type_name }, s.queries)

end

/-- `GetModuleInfo(info, module_id)`. -/
def GetModuleInfo (kNameMaxSize : Nat) (info : ICorProfilerInfo3)
    (module_id : ModuleID) : ModuleInfo :=
  let r := info.GetModuleInfo2 module_id (ULONG_cast 260)
  let module_path := fillBuffer 260 r.written
  let module_path_len := r.path_len.val
  let assembly_id := r.assembly_id
  let module_flags := r.module_flags
  if FAILED r.hr || module_path_len == 0 then
    default
  else
    { id := module_id, path := module_path,
      assembly := GetAssemblyInfo kNameMaxSize info assembly_id, flags := module_flags }

/-- The loop of `FindAssemblyRef` over the remaining references. -/
def FindAssemblyRef.loop (kNameMaxSize : Nat) (assembly_import : IMetaDataAssemblyImport)
    (assembly_name : WSTRING) : List mdAssemblyRef → mdAssemblyRef
  | [] => mdAssemblyRefNil
  | assembly_ref :: rest =>
    if GetAssemblyName kNameMaxSize assembly_import assembly_ref = assembly_name then
      assembly_ref
    else
      FindAssemblyRef.loop kNameMaxSize assembly_import assembly_name rest

/-- `FindAssemblyRef(assembly_import, assembly_name)`. -/
def FindAssemblyRef (kNameMaxSize : Nat) (assembly_import : IMetaDataAssemblyImport)
    (assembly_name : WSTRING) : mdAssemblyRef :=
  FindAssemblyRef.loop kNameMaxSize assembly_import assembly_name
    (EnumAssemblyRefs assembly_import)

/-- `FilterIntegrationsByCaller(integrations, assembly_name)`: the outer loop
appends to `enabled`, the inner loop sets the flag `found`. -/
def FilterIntegrationsByCaller (integrations : List Integration)
    (assembly_name : WSTRING) : List Integration :=
  integrations.foldl
    (fun enabled i =>
      let found := i.method_replacements.foldl
        (fun found mr =>
          if mr.caller_method.assembly.name.isEmpty ||
              mr.caller_method.assembly.name == assembly_name then true else found)
        false
      if found then enabled ++ [i] else enabled)
    []

/-- `FilterIntegrationsByTarget(integrations, assembly_import)`: for every rule
the references are enumerated afresh and each name is resolved again. -/
def FilterIntegrationsByTarget (kNameMaxSize : Nat) (integrations : List Integration)
    (assembly_import : IMetaDataAssemblyImport) : List Integration :=
  integrations.foldl
    (fun enabled i =>
      let found := i.method_replacements.foldl
        (fun found mr =>
          (EnumAssemblyRefs assembly_import).foldl
            (fun found assembly_ref =>
              let name := GetAssemblyName kNameMaxSize assembly_import assembly_ref
              if mr.target_method.assembly.name == name then true else found)
            found)
        false
      if found then enabled ++ [i] else enabled)
    []

/-! ## Specification-side definitions -/

/-- Spec-side rule test of the caller filter: the caller-assembly constraint is
unset (empty) or exactly the given assembly name. -/
def callerRuleMatches (assembly_name : WSTRING) (mr : MethodReplacement) : Prop :=
  mr.caller_method.assembly.name = [] ∨ mr.caller_method.assembly.name = assembly_name

instance (assembly_name : WSTRING) (mr : MethodReplacement) :
    Decidable (callerRuleMatches assembly_name mr) := by
  unfold callerRuleMatches; infer_instance

/-- Spec-side retention test of the caller filter: some rule matches. -/
def retainedByCaller (assembly_name : WSTRING) (i : Integration) : Prop :=
  ∃ mr ∈ i.method_replacements, callerRuleMatches assembly_name mr

instance (assembly_name : WSTRING) (i : Integration) :
    Decidable (retainedByCaller assembly_name i) := by
  unfold retainedByCaller; infer_instance

/-- Spec-side retention test of the target filter: some rule names a target
assembly that is the resolved name of some enumerated reference. -/
def retainedByTarget (kNameMaxSize : Nat) (assembly_import : IMetaDataAssemblyImport)
    (i : Integration) : Prop :=
  ∃ mr ∈ i.method_replacements, ∃ r ∈ EnumAssemblyRefs assembly_import,
    mr.target_method.assembly.name = GetAssemblyName kNameMaxSize assembly_import r

instance (kNameMaxSize : Nat) (assembly_import : IMetaDataAssemblyImport) (i : Integration) :
    Decidable (retainedByTarget kNameMaxSize assembly_import i) := by
  unfold retainedByTarget; infer_instance

/-- Spec-side target filter over reference names resolved once up front. -/
def filterByTargetNames (integrations : List Integration) (names : List WSTRING) :
    List Integration :=
  integrations.filter
    (fun i => i.method_replacements.any (fun mr => names.contains mr.target_method.assembly.name))

/-- Spec-side: the token kind is member-reference or method-definition. -/
def isMemberToken (token : mdToken) : Prop :=
  TypeFromToken token = mdtMemberRef ∨ TypeFromToken token = mdtMethodDef

instance (token : mdToken) : Decidable (isMemberToken token) := by
  unfold isMemberToken; infer_instance

/-- Spec-side: the outcome of the member query the dispatch of `GetFunctionInfo`
issues for a member token: `GetMemberRefProps` for a member-reference,
`GetMemberProps` for a method-definition. -/
def memberProps (kNameMaxSize : Nat) (metadata_import : IMetaDataImport) (token : mdToken) :
    MemberProps :=
  if TypeFromToken token = mdtMemberRef then
    metadata_import.GetMemberRefProps token (ULONG_cast kNameMaxSize)
  else
    metadata_import.GetMemberProps token (ULONG_cast kNameMaxSize)

/-- Spec-side: the log entry of the member query of a member token. -/
def memberQuery (token : mdToken) : Query :=
  if TypeFromToken token = mdtMemberRef then Query.GetMemberRefProps token
  else Query.GetMemberProps token

/-- Spec-side: a query failed, or reported a name length of 0. -/
def queryFailed (hr : HRESULT) (name_len : ULONG) : Prop := hr < 0 ∨ name_len.val = 0

instance (hr : HRESULT) (name_len : ULONG) : Decidable (queryFailed hr name_len) := by
  unfold queryFailed; infer_instance

/-- Spec-side: the first `name_len - 1` code units of the buffer after the call
wrote `written` to it. -/
def trimmed (size : Nat) (written : WSTRING) (name_len : ULONG) : WSTRING :=
  (fillBuffer size written).take (name_len.val - 1)

/-- Spec-side: with some recursion budget, `GetTypeInfo` returns the record `t`. -/
def TypeResolvesTo (kNameMaxSize : Nat) (metadata_import : IMetaDataImport)
    (token : mdToken) (t : TypeInfo) : Prop :=
  ∃ fuel, (GetTypeInfo kNameMaxSize metadata_import fuel token).map Prod.fst = some t

/-- Spec-side: with some recursion budget, `GetFunctionInfo` returns the record `f`. -/
def FunctionResolvesTo (kNameMaxSize : Nat) (metadata_import : IMetaDataImport)
    (token : mdToken) (f : FunctionInfo) : Prop :=
  ∃ fuel, (GetFunctionInfo kNameMaxSize metadata_import fuel token).map Prod.fst = some f

/-! ## Example data -/

/-- The status `E_FAIL`. -/
def E_FAIL : HRESULT := -2147467259

/-- A rule constraining only the caller and target assembly names. -/
def exampleRule (caller target : String) : MethodReplacement :=
  { caller_method := ⟨⟨wstr caller⟩, [], []⟩,
    target_method := ⟨⟨wstr target⟩, [], []⟩,
    wrapper_method := ⟨⟨[]⟩, [], []⟩ }

/-- An integration with a single rule. -/
def exampleIntegration (name caller target : String) : Integration :=
  { integration_name := wstr name, method_replacements := [exampleRule caller target] }

/-- A module whose reference table is `["Newtonsoft.Json", "System.Data"]`;
every other reference token fails to resolve. -/
def exampleReferences : IMetaDataAssemblyImport :=
  { EnumAssemblyRefs := [0x23000001, 0x23000002]
    GetAssemblyRefProps := fun assembly_ref _ =>
      if assembly_ref = 0x23000001 then ⟨0, wstr "Newtonsoft.Json" ++ [0], 16⟩
      else if assembly_ref = 0x23000002 then ⟨0, wstr "System.Data" ++ [0], 12⟩
      else ⟨E_FAIL, [], 0⟩ }

/-- A module whose reference table is `["System.Data"]`. -/
def exampleSingleReference : IMetaDataAssemblyImport :=
  { EnumAssemblyRefs := [0x23000001]
    GetAssemblyRefProps := fun assembly_ref _ =>
      if assembly_ref = 0x23000001 then ⟨0, wstr "System.Data" ++ [0], 12⟩
      else ⟨E_FAIL, [], 0⟩ }

/-- A profiler surface knowing assembly 7 (`"App.A"`) and module 3
(`"a.dll"`, owned by assembly 7, flags 1). -/
def exampleInfo : ICorProfilerInfo3 :=
  { GetAssemblyInfo := fun assembly_id _ =>
      if assembly_id = 7 then ⟨0, wstr "App.A" ++ [0], 6⟩ else ⟨E_FAIL, [], 0⟩
    GetModuleInfo2 := fun module_id _ =>
      if module_id = 3 then ⟨0, wstr "a.dll" ++ [0], 6, 7, 1⟩ else ⟨E_FAIL, [], 0, 0, 0⟩ }

/-- A metadata import with
type-definition `0x02000001` named `"Foo"`, type-reference `0x01000001` named
`"Bar"`, module-reference `0x1a000001` named `"Mod"`,
method-definitions `0x06000001` (`"Run"`, parent `0x02000001`) and
`0x06000002` (`"Go"`, parent the type-specification `0x1b000001`),
member-references `0x0a000001` (`"Call"`, parent `0x01000001`) and
`0x0a000002` (`"Self"`, reported as its own parent); every other query fails. -/
def exampleImport : IMetaDataImport :=
  { GetTypeDefProps := fun token _ =>
      if token = 0x02000001 then ⟨0, wstr "Foo" ++ [0], 4⟩ else ⟨E_FAIL, [], 0⟩
    GetTypeRefProps := fun token _ =>
      if token = 0x01000001 then ⟨0, 0x23000001, wstr "Bar" ++ [0], 4⟩
      else ⟨E_FAIL, mdTokenNil, [], 0⟩
    GetModuleRefProps := fun token _ =>
      if token = 0x1a000001 then ⟨0, wstr "Mod" ++ [0], 4⟩ else ⟨E_FAIL, [], 0⟩
    GetMemberProps := fun token _ =>
      if token = 0x06000001 then ⟨0, 0x02000001, wstr "Run" ++ [0], 4⟩
      else if token = 0x06000002 then ⟨0, 0x1b000001, wstr "Go" ++ [0], 3⟩
      else ⟨E_FAIL, mdTokenNil, [], 0⟩
    GetMemberRefProps := fun token _ =>
      if token = 0x0a000001 then ⟨0, 0x01000001, wstr "Call" ++ [0], 5⟩
      else if token = 0x0a000002 then ⟨0, 0x0a000002, wstr "Self" ++ [0], 5⟩
      else ⟨E_FAIL, mdTokenNil, [], 0⟩ }

/-- A profiler surface on which assembly 9 resolves with a reported name
length of 1: only the terminator was written. -/
def exampleEmptyNameInfo : ICorProfilerInfo3 :=
  { GetAssemblyInfo := fun assembly_id _ =>
      if assembly_id = 9 then ⟨0, [0], 1⟩ else ⟨E_FAIL, [], 0⟩
    GetModuleInfo2 := fun _ _ => ⟨E_FAIL, [], 0, 0, 0⟩ }

/-- A metadata import on which the type-definition `0x02000005`, the
type-reference `0x01000005`, the module-reference `0x1a000005` and the
method-definition `0x06000005` (parent `0x02000001`, unknown here) resolve
with a reported name length of 1. -/
def exampleEmptyNameImport : IMetaDataImport :=
  { GetTypeDefProps := fun token _ =>
      if token = 0x02000005 then ⟨0, [0], 1⟩ else ⟨E_FAIL, [], 0⟩
    GetTypeRefProps := fun token _ =>
      if token = 0x01000005 then ⟨0, 0x23000001, [0], 1⟩ else ⟨E_FAIL, mdTokenNil, [], 0⟩
    GetModuleRefProps := fun token _ =>
      if token = 0x1a000005 then ⟨0, [0], 1⟩ else ⟨E_FAIL, [], 0⟩
    GetMemberProps := fun token _ =>
      if token = 0x06000005 then ⟨0, 0x02000001, [0], 1⟩ else ⟨E_FAIL, mdTokenNil, [], 0⟩
    GetMemberRefProps := fun _ _ => ⟨E_FAIL, mdTokenNil, [], 0⟩ }

/-- A module with one reference, `0x23000001`, whose name cannot be resolved. -/
def exampleUnresolvedReference : IMetaDataAssemblyImport :=
  { EnumAssemblyRefs := [0x23000001]
    GetAssemblyRefProps := fun _ _ => ⟨E_FAIL, [], 0⟩ }

/-- Spec-side: depth of the chain of reported parents.  `parentChain d token`
holds when, following the parent reported by each successful member query,
a token that is not a member token, or a member token whose query fails, is
reached after at most `d` steps. -/
def parentChain (kNameMaxSize : Nat) (metadata_import : IMetaDataImport) :
    Nat → mdToken → Prop
  | 0, token =>
    ¬ isMemberToken token ∨
      queryFailed (memberProps kNameMaxSize metadata_import token).hr
        (memberProps kNameMaxSize metadata_import token).name_len
  | d + 1, token =>
    ¬ isMemberToken token ∨
      queryFailed (memberProps kNameMaxSize metadata_import token).hr
        (memberProps kNameMaxSize metadata_import token).name_len ∨
      parentChain kNameMaxSize metadata_import d
        (memberProps kNameMaxSize metadata_import token).parent_token

/-- The depth test of the parent chain is decidable. -/
def parentChainDecidable (kNameMaxSize : Nat) (metadata_import : IMetaDataImport) :
    (d : Nat) → (token : mdToken) → Decidable (parentChain kNameMaxSize metadata_import d token)
  | 0, token =>
    inferInstanceAs (Decidable (¬ isMemberToken token ∨
      queryFailed (memberProps kNameMaxSize metadata_import token).hr
        (memberProps kNameMaxSize metadata_import token).name_len))
  | d + 1, token =>
    have : Decidable (parentChain kNameMaxSize metadata_import d
        (memberProps kNameMaxSize metadata_import token).parent_token) :=
      parentChainDecidable kNameMaxSize metadata_import d _
    inferInstanceAs (Decidable (¬ isMemberToken token ∨
      queryFailed (memberProps kNameMaxSize metadata_import token).hr
        (memberProps kNameMaxSize metadata_import token).name_len ∨
      parentChain kNameMaxSize metadata_import d
        (memberProps kNameMaxSize metadata_import token).parent_token))

instance (kNameMaxSize : Nat) (metadata_import : IMetaDataImport) (d : Nat) (token : mdToken) :
    Decidable (parentChain kNameMaxSize metadata_import d token) :=
  parentChainDecidable kNameMaxSize metadata_import d token

/-! ## `cor_profiler.h`: the module metadata cache -/

/-- The status `S_OK`. -/
def S_OK : HRESULT := 0

/-- Modelled from the spec: the module metadata cache entry of
`module_metadata.h`, which is not among the sources:
`{ModuleInfo, AssemblyInfo, filtered integration set}`.  The member tokens
resolved later for injected calls belong to the rewriting logic and are left
out. -/
structure ModuleMetadata where
  module_info : ModuleInfo
  assembly_info : AssemblyInfo
  integrations : List Integration
  deriving DecidableEq, Repr

/-- The value-initialised entry. -/
instance : Inhabited ModuleMetadata := ⟨⟨default, default, []⟩⟩

/-- The fields of `CorProfiler` (`cor_profiler.h`) the module callbacks use.
The map `std::unordered_map<ModuleID, ModuleMetadata*>` is a partial function:
`none` is an absent key. -/
structure CorProfiler where
  is_attached_ : Bool
  integrations_ : List Integration
  module_id_to_info_map_ : ModuleID → Option ModuleMetadata

/-- The member initialisers of `cor_profiler.h`: `is_attached_ = false`, an
empty catalog and an empty map. -/
instance : Inhabited CorProfiler := ⟨⟨false, [], fun _ => none⟩⟩

/-- The runtime as the module callbacks see it: the profiler surface and, for
every module, the assembly import of its metadata. -/
structure Runtime where
  info : ICorProfilerInfo3
  assembly_import : ModuleID → IMetaDataAssemblyImport

/-- Modelled from the spec: `CorProfiler::Initialize` of `cor_profiler.cpp`,
which is not among the sources.  When the introspection surface is acquired
the instance becomes attached with the given catalog; an acquisition failure
leaves it not attached. -/
def CorProfiler.Initialize (this : CorProfiler) (acquired : Bool)
    (catalog : List Integration) : CorProfiler × HRESULT :=
  if acquired then
    ({ this with is_attached_ := true, integrations_ := catalog }, S_OK)
  else
    (this, E_FAIL)

/-- Modelled from the spec: `CorProfiler::ModuleLoadFinished` of
`cor_profiler.cpp`, which is not among the sources.  Not attached: a no-op.
Attached: resolve the module and its assembly, run both catalog filters with
the assembly name and the reference table of the module, and insert the entry
under the module id.  The spec gives `hr_status` no role. -/
def CorProfiler.ModuleLoadFinished (kNameMaxSize : Nat) (runtime : Runtime)
    (this : CorProfiler) (module_id : ModuleID) (_hr_status : HRESULT) :
    CorProfiler × HRESULT :=
  if this.is_attached_ then
    let module_info := GetModuleInfo kNameMaxSize runtime.info module_id
    let enabled_integrations :=
      FilterIntegrationsByCaller this.integrations_ module_info.assembly.name
    let enabled_integrations :=
      FilterIntegrationsByTarget kNameMaxSize enabled_integrations
        (runtime.assembly_import module_id)
    let module_metadata : ModuleMetadata :=
      { module_info := module_info, assembly_info := module_info.assembly,
        integrations := enabled_integrations }
    ({ this with module_id_to_info_map_ := fun m =>
         if m = module_id then some module_metadata else this.module_id_to_info_map_ m },
     S_OK)
  else
    (this, S_OK)

/-- Modelled from the spec: `CorProfiler::ModuleUnloadStarted` of
`cor_profiler.cpp`, which is not among the sources.  Not attached: a no-op.
Attached: remove the entry of the module id. -/
def CorProfiler.ModuleUnloadStarted (this : CorProfiler) (module_id : ModuleID) :
    CorProfiler × HRESULT :=
  if this.is_attached_ then
    ({ this with module_id_to_info_map_ := fun m =>
         if m = module_id then none else this.module_id_to_info_map_ m },
     S_OK)
  else
    (this, S_OK)

/-- Modelled from the spec: the read-only lookup a compile-started event
performs; absent when the profiler is not attached or the map has no entry. -/
def CorProfiler.lookup (this : CorProfiler) (module_id : ModuleID) :
    Option ModuleMetadata :=
  if this.is_attached_ then this.module_id_to_info_map_ module_id else none

/-- Modelled from the spec: `CorProfiler::JITCompilationStarted` of
`cor_profiler.cpp`, which is not among the sources: it only reads the cache. -/
def CorProfiler.JITCompilationStarted (this : CorProfiler) (_function_id : Nat)
    (_is_safe_to_block : Bool) : CorProfiler × HRESULT :=
  (this, S_OK)

/-- A per-module callback of the runtime. -/
inductive ModuleEvent where
  | ModuleLoadFinished (module_id : ModuleID) (hr_status : HRESULT)
  | ModuleUnloadStarted (module_id : ModuleID)
  | JITCompilationStarted (function_id : Nat) (is_safe_to_block : Bool)
  deriving DecidableEq, Repr

/-- The profiler after one callback. -/
def CorProfiler.step (kNameMaxSize : Nat) (runtime : Runtime) (this : CorProfiler) :
    ModuleEvent → CorProfiler
  | .ModuleLoadFinished module_id hr_status =>
    (this.ModuleLoadFinished kNameMaxSize runtime module_id hr_status).1
  | .ModuleUnloadStarted module_id => (this.ModuleUnloadStarted module_id).1
  | .JITCompilationStarted function_id is_safe_to_block =>
    (this.JITCompilationStarted function_id is_safe_to_block).1

/-- The profiler after a sequence of callbacks, oldest first. -/
def CorProfiler.run (kNameMaxSize : Nat) (runtime : Runtime) (this : CorProfiler)
    (events : List ModuleEvent) : CorProfiler :=
  events.foldl (CorProfiler.step kNameMaxSize runtime) this

/-- Spec-side: whether module `m` is currently loaded after the callbacks
`events` (oldest first), given whether it was loaded before: the latest
load-finished or unload-started callback for `m` decides. -/
def currentlyLoaded (m : ModuleID) (before : Bool) (events : List ModuleEvent) : Bool :=
  events.foldl
    (fun loaded e =>
      match e with
      | .ModuleLoadFinished module_id _ => if module_id = m then true else loaded
      | .ModuleUnloadStarted module_id => if module_id = m then false else loaded
      | .JITCompilationStarted _ _ => loaded)
    before

/-- A runtime with the surface `exampleInfo` in which every module references
`["System.Data"]`. -/
def exampleRuntime : Runtime :=
  { info := exampleInfo, assembly_import := fun _ => exampleSingleReference }

end trace

/-! ## `class_factory.cpp` -/

/-- An interface identifier, as the 128-bit number of its GUID. -/
abbrev IID := Nat

/-- The GUID `00000000-0000-0000-C000-000000000046`. -/
def IID_IUnknown : IID := 0x0000000000000000C000000000000046

/-- The GUID `00000001-0000-0000-C000-000000000046`. -/
def IID_IClassFactory : IID := 0x0000000100000000C000000000000046

/-- The status `E_NOINTERFACE`, `0x80004002`. -/
def E_NOINTERFACE : Int := -2147467262

/-- A value of type `int` out of an integer: two's complement wrap-around. -/
def INT_wrap (z : Int) : Int := (z + 2147483648) % 4294967296 - 2147483648

/-- The conversion of an `int` to the return type `ULONG`. -/
def ULONG_of_int (z : Int) : Nat := (z % 4294967296).toNat

/-- What `*ppvObject` holds after `QueryInterface`. -/
inductive ObjectPointer where
  | null
  | this
  deriving DecidableEq, Repr

/-- The state of a `ClassFactory`: the counter `refCount` (an `int`) and
whether `delete this` has run. -/
structure ClassFactory where
  refCount : Int
  deleted : Bool
  deriving DecidableEq, Repr

/-- The constructor `ClassFactory::ClassFactory() : refCount(0)`. -/
def ClassFactory.new : ClassFactory := { refCount := 0, deleted := false }

/-- `ClassFactory::AddRef`: `atomic_fetch_add(&refCount, 1) + 1`. -/
def ClassFactory.AddRef (this : ClassFactory) : ClassFactory × Nat :=
  let previous := this.refCount
  ({ this with refCount := INT_wrap (previous + 1) },
   ULONG_of_int (INT_wrap (previous + 1)))

/-- `ClassFactory::Release`: `count = atomic_fetch_sub(&refCount, 1) - 1`,
`delete this` when `count <= 0`, and `count` returned. -/
def ClassFactory.Release (this : ClassFactory) : ClassFactory × Nat :=
  let previous := this.refCount
  let count := INT_wrap (previous - 1)
  let this := { this with refCount := INT_wrap (previous - 1) }
  let this := if count ≤ 0 then { this with deleted := true } else this
  (this, ULONG_of_int count)

/-- `ClassFactory::QueryInterface(riid, ppvObject)`. -/
def ClassFactory.QueryInterface (this : ClassFactory) (riid : IID) :
    ClassFactory × ObjectPointer × Int :=
  if riid = IID_IUnknown ∨ riid = IID_IClassFactory then
    ((this.AddRef).1, ObjectPointer.this, trace.S_OK)
  else
    (this, ObjectPointer.null, E_NOINTERFACE)

/-- `ClassFactory::LockServer(fLock)`. -/
def ClassFactory.LockServer (this : ClassFactory) (_fLock : Bool) : ClassFactory × Int :=
  (this, trace.S_OK)

namespace trace

/-! ## Loop lemmas -/

/-- A loop that only ever raises a flag computes a disjunction. -/
theorem foldl_flag {α : Type} (p : α → Bool) (l : List α) (b : Bool) :
    l.foldl (fun found x => if p x then true else found) b = (b || l.any p) := by
  induction l generalizing b with
  | nil => simp
  | cons x xs ih =>
    simp only [List.foldl_cons, List.any_cons, ih]
    cases b <;> cases p x <;> simp

/-- A loop that threads a flag through an inner flag-raising scan. -/
theorem foldl_flag_nested {α : Type} (p : α → Bool) (l : List α) (b : Bool) :
    l.foldl (fun found x => found || p x) b = (b || l.any p) := by
  induction l generalizing b with
  | nil => simp
  | cons x xs ih =>
    simp only [List.foldl_cons, List.any_cons, ih, Bool.or_assoc]

/-- A loop that conditionally appends to the output computes a filter. -/
theorem foldl_push {α : Type} (q : α → Bool) (l init : List α) :
    l.foldl (fun enabled x => if q x then enabled ++ [x] else enabled) init
      = init ++ l.filter q := by
  induction l generalizing init with
  | nil => simp
  | cons x xs ih =>
    simp only [List.foldl_cons, ih, List.filter_cons]
    cases q x <;> simp

/-- The caller filter as a list filter with a boolean test. -/
theorem FilterIntegrationsByCaller_eq_filter (integrations : List Integration)
    (assembly_name : WSTRING) :
    FilterIntegrationsByCaller integrations assembly_name
      = integrations.filter (fun i => decide (retainedByCaller assembly_name i)) := by
  unfold FilterIntegrationsByCaller
  have h : ∀ i : Integration,
      i.method_replacements.foldl
        (fun found mr =>
          if mr.caller_method.assembly.name.isEmpty ||
              mr.caller_method.assembly.name == assembly_name then true else found) false
        = decide (retainedByCaller assembly_name i) := by
    intro i
    rw [foldl_flag (fun mr : MethodReplacement => mr.caller_method.assembly.name.isEmpty ||
              mr.caller_method.assembly.name == assembly_name)]
    simp only [Bool.false_or]
    rw [Bool.eq_iff_iff]
    simp [retainedByCaller, callerRuleMatches, List.isEmpty_iff]
  simp only [h]
  rw [foldl_push]; simp

/-- The target filter as a list filter with a boolean test. -/
theorem FilterIntegrationsByTarget_eq_filter (kNameMaxSize : Nat)
    (integrations : List Integration) (assembly_import : IMetaDataAssemblyImport) :
    FilterIntegrationsByTarget kNameMaxSize integrations assembly_import
      = integrations.filter
          (fun i => decide (retainedByTarget kNameMaxSize assembly_import i)) := by
  unfold FilterIntegrationsByTarget
  have h : ∀ i : Integration,
      i.method_replacements.foldl
        (fun found mr =>
          (EnumAssemblyRefs assembly_import).foldl
            (fun found assembly_ref =>
              let name := GetAssemblyName kNameMaxSize assembly_import assembly_ref
              if mr.target_method.assembly.name == name then true else found)
            found) false
        = decide (retainedByTarget kNameMaxSize assembly_import i) := by
    intro i
    have inner : ∀ (mr : MethodReplacement) (found : Bool),
        (EnumAssemblyRefs assembly_import).foldl
            (fun found assembly_ref =>
              let name := GetAssemblyName kNameMaxSize assembly_import assembly_ref
              if mr.target_method.assembly.name == name then true else found)
            found
          = (found || (EnumAssemblyRefs assembly_import).any
              (fun r => mr.target_method.assembly.name
                == GetAssemblyName kNameMaxSize assembly_import r)) := by
      intro mr found
      exact foldl_flag (fun r => mr.target_method.assembly.name
                == GetAssemblyName kNameMaxSize assembly_import r) _ found
    simp only [inner]
    rw [foldl_flag_nested (fun mr : MethodReplacement => (EnumAssemblyRefs assembly_import).any
              (fun r => mr.target_method.assembly.name
                == GetAssemblyName kNameMaxSize assembly_import r))]
    simp only [Bool.false_or]
    rw [Bool.eq_iff_iff]
    simp [retainedByTarget]
  simp only [h]
  rw [foldl_push]; simp

/-! ## Resolver lemmas -/

theorem ULONG_sub_one (n : ULONG) (h : n.val ≠ 0) : ULONG_sub n.val 1 = n.val - 1 := by
  have := n.isLt
  unfold ULONG_sub ULONG_RANGE
  omega

theorem substr_zero (s : WSTRING) (n : Nat) : substr s 0 n = s.take n := by
  simp [substr]

theorem fillBuffer_length (size : Nat) (written : WSTRING) :
    (fillBuffer size written).length = size := by
  simp [fillBuffer]; omega

theorem guard_iff (hr : HRESULT) (n : ULONG) :
    (FAILED hr || n.val == 0) = decide (queryFailed hr n) := by
  rw [Bool.eq_iff_iff]; simp [FAILED, queryFailed]

theorem trim_eq (size : Nat) (written : WSTRING) (hr : HRESULT) (n : ULONG) (h : ¬ queryFailed hr n) :
    substr (fillBuffer size written) 0 (ULONG_sub n.val 1) = trimmed size written n := by
  have : n.val ≠ 0 := fun h0 => h (Or.inr h0)
  rw [substr_zero, ULONG_sub_one n this, trimmed]

theorem GetAssemblyInfo_eq (K : Nat) (info : ICorProfilerInfo3) (id : AssemblyID) :
    GetAssemblyInfo K info id =
      if queryFailed (info.GetAssemblyInfo id (ULONG_cast K)).hr
          (info.GetAssemblyInfo id (ULONG_cast K)).name_len then default
      else { id := id, name := trimmed K (info.GetAssemblyInfo id (ULONG_cast K)).written
                (info.GetAssemblyInfo id (ULONG_cast K)).name_len } := by
  unfold GetAssemblyInfo
  simp only [guard_iff, decide_eq_true_eq]
  split
  · rfl
  · rename_i h; rw [trim_eq _ _ _ _ h]

theorem GetAssemblyName_eq (K : Nat) (ai : IMetaDataAssemblyImport) (ref : mdAssemblyRef) :
    GetAssemblyName K ai ref =
      if queryFailed (ai.GetAssemblyRefProps ref (ULONG_cast K)).hr
          (ai.GetAssemblyRefProps ref (ULONG_cast K)).name_len then []
      else trimmed K (ai.GetAssemblyRefProps ref (ULONG_cast K)).written
                (ai.GetAssemblyRefProps ref (ULONG_cast K)).name_len := by
  unfold GetAssemblyName
  simp only [guard_iff, decide_eq_true_eq]
  split
  · rfl
  · rename_i h; rw [trim_eq _ _ _ _ h]

theorem GetFunctionInfo_member (K : Nat) (mi : IMetaDataImport) (fuel : Nat) (token : mdToken)
    (h : isMemberToken token) :
    GetFunctionInfo K mi (fuel + 1) token =
      if queryFailed (memberProps K mi token).hr (memberProps K mi token).name_len then
        some (default, [memberQuery token])
      else
        (GetTypeInfo K mi fuel (memberProps K mi token).parent_token).map
          (fun p => ({ id := token,
                       name := trimmed K (memberProps K mi token).written
                                 (memberProps K mi token).name_len,
                       type := p.1 }, memberQuery token :: p.2)) := by
  rw [GetFunctionInfo]
  rcases h with h | h
  · simp only [h, memberProps, memberQuery, if_true, guard_iff, decide_eq_true_eq]
    split
    · rfl
    · rename_i hq
      rw [trim_eq _ _ _ _ hq]
      cases GetTypeInfo K mi fuel (mi.GetMemberRefProps token (ULONG_cast K)).parent_token <;> rfl
  · have h2 : ¬ (mdtMethodDef = mdtMemberRef) := by decide
    simp only [h, h2, memberProps, memberQuery, if_true, if_false, guard_iff, decide_eq_true_eq]
    split
    · rfl
    · rename_i hq
      rw [trim_eq _ _ _ _ hq]
      cases GetTypeInfo K mi fuel (mi.GetMemberProps token (ULONG_cast K)).parent_token <;> rfl

theorem GetFunctionInfo_other (K : Nat) (mi : IMetaDataImport) (fuel : Nat) (token : mdToken)
    (h : ¬ isMemberToken token) :
    GetFunctionInfo K mi (fuel + 1) token = some (default, []) := by
  have h1 : ¬ TypeFromToken token = mdtMemberRef := fun e => h (Or.inl e)
  have h2 : ¬ TypeFromToken token = mdtMethodDef := fun e => h (Or.inr e)
  rw [GetFunctionInfo]
  simp [h1, h2, Locals.init, FAILED]

theorem GetTypeInfo_member (K : Nat) (mi : IMetaDataImport) (fuel : Nat) (token : mdToken)
    (h : isMemberToken token) :
    GetTypeInfo K mi (fuel + 1) token =
      (GetFunctionInfo K mi fuel token).map (fun p => (p.1.type, p.2)) := by
  rw [GetTypeInfo]
  rcases h with h | h
  · simp only [h, if_true]
  · simp only [h, if_true, ite_self]



theorem GetTypeInfo_typeDef (K : Nat) (mi : IMetaDataImport) (fuel : Nat) (token : mdToken)
    (h : TypeFromToken token = mdtTypeDef) :
    GetTypeInfo K mi (fuel + 1) token =
      if queryFailed (mi.GetTypeDefProps token (ULONG_cast K)).hr
          (mi.GetTypeDefProps token (ULONG_cast K)).name_len then
        some (default, [Query.GetTypeDefProps token])
      else
        some ({ id := token,
                name := trimmed K (mi.GetTypeDefProps token (ULONG_cast K)).written
                          (mi.GetTypeDefProps token (ULONG_cast K)).name_len },
              [Query.GetTypeDefProps token]) := by
  have h1 : ¬ (mdtTypeDef = mdtMemberRef) := by decide
  have h2 : ¬ (mdtTypeDef = mdtMethodDef) := by decide
  rw [GetTypeInfo]
  simp only [h, h1, h2, if_true, if_false, guard_iff, decide_eq_true_eq]
  split
  · rfl
  · rename_i hq; rw [trim_eq _ _ _ _ hq]

theorem GetTypeInfo_typeRef (K : Nat) (mi : IMetaDataImport) (fuel : Nat) (token : mdToken)
    (h : TypeFromToken token = mdtTypeRef) :
    GetTypeInfo K mi (fuel + 1) token =
      if queryFailed (mi.GetTypeRefProps token (ULONG_cast K)).hr
          (mi.GetTypeRefProps token (ULONG_cast K)).name_len then
        some (default, [Query.GetTypeRefProps token])
      else
        some ({ id := token,
                name := trimmed K (mi.GetTypeRefProps token (ULONG_cast K)).written
                          (mi.GetTypeRefProps token (ULONG_cast K)).name_len },
              [Query.GetTypeRefProps token]) := by
  have h1 : ¬ (mdtTypeRef = mdtMemberRef) := by decide
  have h2 : ¬ (mdtTypeRef = mdtMethodDef) := by decide
  have h3 : ¬ (mdtTypeRef = mdtTypeDef) := by decide
  rw [GetTypeInfo]
  simp only [h, h1, h2, h3, if_true, if_false, guard_iff, decide_eq_true_eq]
  split
  · rfl
  · rename_i hq; rw [trim_eq _ _ _ _ hq]

theorem GetTypeInfo_moduleRef (K : Nat) (mi : IMetaDataImport) (fuel : Nat) (token : mdToken)
    (h : TypeFromToken token = mdtModuleRef) :
    GetTypeInfo K mi (fuel + 1) token = some (default, [Query.GetModuleRefProps token]) := by
  have h1 : ¬ (mdtModuleRef = mdtMemberRef) := by decide
  have h2 : ¬ (mdtModuleRef = mdtMethodDef) := by decide
  have h3 : ¬ (mdtModuleRef = mdtTypeDef) := by decide
  have h4 : ¬ (mdtModuleRef = mdtTypeRef) := by decide
  have h5 : ¬ (mdtModuleRef = mdtTypeSpec) := by decide
  rw [GetTypeInfo]
  simp [h, h1, h2, h3, h4, h5, Locals.init, FAILED]

theorem GetTypeInfo_unhandled (K : Nat) (mi : IMetaDataImport) (fuel : Nat) (token : mdToken)
    (h1 : TypeFromToken token ≠ mdtMemberRef) (h2 : TypeFromToken token ≠ mdtMethodDef)
    (h3 : TypeFromToken token ≠ mdtTypeDef) (h4 : TypeFromToken token ≠ mdtTypeRef)
    (h5 : TypeFromToken token ≠ mdtModuleRef) :
    GetTypeInfo K mi (fuel + 1) token = some (default, []) := by
  rw [GetTypeInfo]
  simp [h1, h2, h3, h4, h5, Locals.init, FAILED]

/-- More budget never changes a result already obtained. -/
theorem fuel_succ (K : Nat) (mi : IMetaDataImport) (fuel : Nat) :
    (∀ token v, GetFunctionInfo K mi fuel token = some v →
        GetFunctionInfo K mi (fuel + 1) token = some v) ∧
    (∀ token v, GetTypeInfo K mi fuel token = some v →
        GetTypeInfo K mi (fuel + 1) token = some v) := by
  induction fuel with
  | zero =>
    constructor <;> intro token v h
    · rw [GetFunctionInfo] at h; cases h
    · rw [GetTypeInfo] at h; cases h
  | succ n ih =>
    obtain ⟨ihF, ihT⟩ := ih
    constructor
    · intro token v h
      by_cases hm : isMemberToken token
      · rw [GetFunctionInfo_member K mi _ token hm] at h ⊢
        split
        · rename_i hq; rw [if_pos hq] at h; exact h
        · rename_i hq
          rw [if_neg hq] at h
          cases hT : GetTypeInfo K mi n (memberProps K mi token).parent_token with
          | none => rw [hT] at h; cases h
          | some p => rw [hT] at h; rw [ihT _ _ hT]; exact h
      · rw [GetFunctionInfo_other K mi _ token hm] at h ⊢; exact h
    · intro token v h
      by_cases hm : isMemberToken token
      · rw [GetTypeInfo_member K mi _ token hm] at h ⊢
        cases hF : GetFunctionInfo K mi n token with
        | none => rw [hF] at h; cases h
        | some p => rw [hF] at h; rw [ihF _ _ hF]; exact h
      · have h1 : TypeFromToken token ≠ mdtMemberRef := fun e => hm (Or.inl e)
        have h2 : TypeFromToken token ≠ mdtMethodDef := fun e => hm (Or.inr e)
        by_cases h3 : TypeFromToken token = mdtTypeDef
        · rw [GetTypeInfo_typeDef K mi _ token h3] at h ⊢; exact h
        · by_cases h4 : TypeFromToken token = mdtTypeRef
          · rw [GetTypeInfo_typeRef K mi _ token h4] at h ⊢; exact h
          · by_cases h5 : TypeFromToken token = mdtModuleRef
            · rw [GetTypeInfo_moduleRef K mi _ token h5] at h ⊢; exact h
            · rw [GetTypeInfo_unhandled K mi _ token h1 h2 h3 h4 h5] at h ⊢; exact h

theorem GetTypeInfo_fuel_mono (K : Nat) (mi : IMetaDataImport) (fuel extra : Nat)
    (token : mdToken) (v : TypeInfo × List Query)
    (h : GetTypeInfo K mi fuel token = some v) :
    GetTypeInfo K mi (fuel + extra) token = some v := by
  induction extra with
  | zero => exact h
  | succ k ih => exact (fuel_succ K mi (fuel + k)).2 token v ih

theorem GetFunctionInfo_fuel_mono (K : Nat) (mi : IMetaDataImport) (fuel extra : Nat)
    (token : mdToken) (v : FunctionInfo × List Query)
    (h : GetFunctionInfo K mi fuel token = some v) :
    GetFunctionInfo K mi (fuel + extra) token = some v := by
  induction extra with
  | zero => exact h
  | succ k ih => exact (fuel_succ K mi (fuel + k)).1 token v ih

/-! ## Integration catalog filter -/

/-- C1: for every catalog and every assembly name (the empty one included),
`FilterIntegrationsByCaller` is exactly the list of the integrations of the
catalog, in catalog order, that have at least one rule whose caller assembly
name is empty or equal to the given name; an integration without such a rule,
in particular one without rules, is dropped.  On the catalog
`[I1: caller "App.A"], [I2: caller ""]` the name `"App.B"` gives `[I2]`. -/
theorem C1_filter_by_caller_exact :
    (∀ (catalog : List Integration) (n : WSTRING),
        FilterIntegrationsByCaller catalog n
          = catalog.filter (fun i => decide (retainedByCaller n i))) ∧
    (∀ (catalog : List Integration) (n : WSTRING) (i : Integration),
        i ∈ FilterIntegrationsByCaller catalog n ↔
          i ∈ catalog ∧ ∃ mr ∈ i.method_replacements,
            mr.caller_method.assembly.name = [] ∨ mr.caller_method.assembly.name = n) ∧
    (∀ (catalog : List Integration) (n : WSTRING) (i : Integration),
        i.method_replacements = [] → i ∉ FilterIntegrationsByCaller catalog n) ∧
    FilterIntegrationsByCaller
        [exampleIntegration "I1" "App.A" "", exampleIntegration "I2" "" ""] (wstr "App.B")
      = [exampleIntegration "I2" "" ""] := by
  refine ⟨FilterIntegrationsByCaller_eq_filter, ?_, ?_, by decide⟩
  · intro catalog n i
    rw [FilterIntegrationsByCaller_eq_filter]
    simp [retainedByCaller, callerRuleMatches]
  · intro catalog n i hi hmem
    rw [FilterIntegrationsByCaller_eq_filter] at hmem
    simp [retainedByCaller, hi] at hmem

/-- C2: for every catalog and every import context, `FilterIntegrationsByTarget`
is exactly the list of the integrations of the catalog, in catalog order, that
have at least one rule whose target assembly name equals the resolved name of
some enumerated reference; it equals filtering against the list of reference
names resolved once up front.  With references
`["Newtonsoft.Json", "System.Data"]` the catalog
`[I1: target "System.Data"], [I2: target "Foo"]` gives `[I1]`. -/
theorem C2_filter_by_target_exact :
    (∀ (kNameMaxSize : Nat) (catalog : List Integration) (ctx : IMetaDataAssemblyImport),
        FilterIntegrationsByTarget kNameMaxSize catalog ctx
          = catalog.filter (fun i => decide (retainedByTarget kNameMaxSize ctx i))) ∧
    (∀ (kNameMaxSize : Nat) (catalog : List Integration) (ctx : IMetaDataAssemblyImport),
        FilterIntegrationsByTarget kNameMaxSize catalog ctx
          = filterByTargetNames catalog
              ((EnumAssemblyRefs ctx).map (GetAssemblyName kNameMaxSize ctx))) ∧
    (EnumAssemblyRefs exampleReferences).map (GetAssemblyName 1024 exampleReferences)
      = [wstr "Newtonsoft.Json", wstr "System.Data"] ∧
    FilterIntegrationsByTarget 1024
        [exampleIntegration "I1" "" "System.Data", exampleIntegration "I2" "" "Foo"]
        exampleReferences
      = [exampleIntegration "I1" "" "System.Data"] := by
  refine ⟨FilterIntegrationsByTarget_eq_filter, ?_, by decide, by decide⟩
  intro K catalog ctx
  rw [FilterIntegrationsByTarget_eq_filter, filterByTargetNames]
  apply List.filter_congr
  intro i _
  rw [Bool.eq_iff_iff]
  simp only [decide_eq_true_eq, retainedByTarget, List.any_eq_true, List.contains_iff_exists_mem_beq,
    List.mem_map, beq_iff_eq]
  constructor
  · rintro ⟨mr, hmr, r, hr, e⟩
    exact ⟨mr, hmr, _, ⟨r, hr, rfl⟩, e⟩
  · rintro ⟨mr, hmr, _, ⟨r, hr, rfl⟩, e⟩
    exact ⟨mr, hmr, r, hr, e⟩

/-- C3: the result of either filter is a sublist of the catalog: an
order-preserving subsequence whose elements are elements of the catalog
themselves, each with all its rules, none duplicated or reordered. -/
theorem C3_filters_return_sublist :
    (∀ (catalog : List Integration) (n : WSTRING),
        List.Sublist (FilterIntegrationsByCaller catalog n) catalog ∧
        (∀ i ∈ FilterIntegrationsByCaller catalog n, i ∈ catalog) ∧
        (∀ i, (FilterIntegrationsByCaller catalog n).count i ≤ catalog.count i)) ∧
    (∀ (kNameMaxSize : Nat) (catalog : List Integration) (ctx : IMetaDataAssemblyImport),
        List.Sublist (FilterIntegrationsByTarget kNameMaxSize catalog ctx) catalog ∧
        (∀ i ∈ FilterIntegrationsByTarget kNameMaxSize catalog ctx, i ∈ catalog) ∧
        (∀ i, (FilterIntegrationsByTarget kNameMaxSize catalog ctx).count i
                ≤ catalog.count i)) := by
  constructor
  · intro catalog n
    have hs : List.Sublist (FilterIntegrationsByCaller catalog n) catalog := by
      rw [FilterIntegrationsByCaller_eq_filter]; exact List.filter_sublist _
    exact ⟨hs, fun i hi => hs.subset hi, fun i => hs.count_le i⟩
  · intro K catalog ctx
    have hs : List.Sublist (FilterIntegrationsByTarget K catalog ctx) catalog := by
      rw [FilterIntegrationsByTarget_eq_filter]; exact List.filter_sublist _
    exact ⟨hs, fun i hi => hs.subset hi, fun i => hs.count_le i⟩

/-- C4: the two filters commute and only restrict: applying them in either
order gives the same list, namely the integrations of the catalog, in order,
that each filter retains on its own.  With caller `"App.A"`, references
`["System.Data"]` and the catalog
`[I1: caller "App.A" / target "System.Data"], [I2: caller "Other" / target "Foo"]`
both orders give `[I1]`. -/
theorem C4_filters_commute :
    (∀ (kNameMaxSize : Nat) (c : List Integration) (n : WSTRING)
        (ctx : IMetaDataAssemblyImport),
        FilterIntegrationsByCaller (FilterIntegrationsByTarget kNameMaxSize c ctx) n
          = FilterIntegrationsByTarget kNameMaxSize (FilterIntegrationsByCaller c n) ctx ∧
        FilterIntegrationsByCaller (FilterIntegrationsByTarget kNameMaxSize c ctx) n
          = c.filter (fun i => decide (i ∈ FilterIntegrationsByCaller c n) &&
                               decide (i ∈ FilterIntegrationsByTarget kNameMaxSize c ctx)) ∧
        (∀ i, i ∈ FilterIntegrationsByCaller (FilterIntegrationsByTarget kNameMaxSize c ctx) n
              ↔ i ∈ FilterIntegrationsByCaller c n ∧
                i ∈ FilterIntegrationsByTarget kNameMaxSize c ctx)) ∧
    FilterIntegrationsByCaller
        (FilterIntegrationsByTarget 1024
          [exampleIntegration "I1" "App.A" "System.Data",
           exampleIntegration "I2" "Other" "Foo"] exampleSingleReference) (wstr "App.A")
      = [exampleIntegration "I1" "App.A" "System.Data"] ∧
    FilterIntegrationsByTarget 1024
        (FilterIntegrationsByCaller
          [exampleIntegration "I1" "App.A" "System.Data",
           exampleIntegration "I2" "Other" "Foo"] (wstr "App.A")) exampleSingleReference
      = [exampleIntegration "I1" "App.A" "System.Data"] := by
  refine ⟨?_, by decide, by decide⟩
  intro K c n ctx
  have hboth : FilterIntegrationsByCaller (FilterIntegrationsByTarget K c ctx) n
      = c.filter (fun i => decide (i ∈ FilterIntegrationsByCaller c n) &&
                           decide (i ∈ FilterIntegrationsByTarget K c ctx)) := by
    simp only [FilterIntegrationsByCaller_eq_filter, FilterIntegrationsByTarget_eq_filter,
      List.filter_filter]
    apply List.filter_congr
    intro i hi
    rw [Bool.eq_iff_iff]
    simp [List.mem_filter, hi]
  refine ⟨?_, hboth, ?_⟩
  · simp only [FilterIntegrationsByCaller_eq_filter, FilterIntegrationsByTarget_eq_filter,
      List.filter_filter]
    apply List.filter_congr
    intro i _
    exact Bool.and_comm _ _
  · intro i
    rw [hboth]
    simp only [List.mem_filter, Bool.and_eq_true, decide_eq_true_eq]
    constructor
    · rintro ⟨_, h1, h2⟩; exact ⟨h1, h2⟩
    · rintro ⟨h1, h2⟩
      refine ⟨?_, h1, h2⟩
      rw [FilterIntegrationsByCaller_eq_filter] at h1
      exact (List.mem_filter.mp h1).1

/-! ## Token identity resolver -/

/-- C5: when the query a resolver issues returns a failing status or reports a
name length of 0, `GetAssemblyInfo`, `GetModuleInfo`, `GetTypeInfo` and
`GetFunctionInfo` return the value-initialised record, whose name is empty, and
`GetAssemblyName` returns the empty string; a record is returned in every
case, no error. -/
theorem C5_failed_query_gives_default (kNameMaxSize : Nat) (info : ICorProfilerInfo3)
    (metadata_import : IMetaDataImport) (assembly_import : IMetaDataAssemblyImport) :
    (∀ assembly_id,
        queryFailed (info.GetAssemblyInfo assembly_id (ULONG_cast kNameMaxSize)).hr
          (info.GetAssemblyInfo assembly_id (ULONG_cast kNameMaxSize)).name_len →
        GetAssemblyInfo kNameMaxSize info assembly_id = default) ∧
    (∀ assembly_ref,
        queryFailed
          (assembly_import.GetAssemblyRefProps assembly_ref (ULONG_cast kNameMaxSize)).hr
          (assembly_import.GetAssemblyRefProps assembly_ref (ULONG_cast kNameMaxSize)).name_len →
        GetAssemblyName kNameMaxSize assembly_import assembly_ref = []) ∧
    (∀ module_id,
        queryFailed (info.GetModuleInfo2 module_id (ULONG_cast 260)).hr
          (info.GetModuleInfo2 module_id (ULONG_cast 260)).path_len →
        GetModuleInfo kNameMaxSize info module_id = default) ∧
    (∀ fuel token, TypeFromToken token = mdtTypeDef →
        queryFailed (metadata_import.GetTypeDefProps token (ULONG_cast kNameMaxSize)).hr
          (metadata_import.GetTypeDefProps token (ULONG_cast kNameMaxSize)).name_len →
        (GetTypeInfo kNameMaxSize metadata_import (fuel + 1) token).map Prod.fst
          = some default) ∧
    (∀ fuel token, TypeFromToken token = mdtTypeRef →
        queryFailed (metadata_import.GetTypeRefProps token (ULONG_cast kNameMaxSize)).hr
          (metadata_import.GetTypeRefProps token (ULONG_cast kNameMaxSize)).name_len →
        (GetTypeInfo kNameMaxSize metadata_import (fuel + 1) token).map Prod.fst
          = some default) ∧
    (∀ fuel token, TypeFromToken token = mdtModuleRef →
        queryFailed (metadata_import.GetModuleRefProps token (ULONG_cast kNameMaxSize)).hr
          (metadata_import.GetModuleRefProps token (ULONG_cast kNameMaxSize)).name_len →
        (GetTypeInfo kNameMaxSize metadata_import (fuel + 1) token).map Prod.fst
          = some default) ∧
    (∀ fuel token, TypeFromToken token = mdtMemberRef →
        queryFailed (metadata_import.GetMemberRefProps token (ULONG_cast kNameMaxSize)).hr
          (metadata_import.GetMemberRefProps token (ULONG_cast kNameMaxSize)).name_len →
        (GetFunctionInfo kNameMaxSize metadata_import (fuel + 1) token).map Prod.fst
          = some default ∧
        (GetTypeInfo kNameMaxSize metadata_import (fuel + 2) token).map Prod.fst
          = some default) ∧
    (∀ fuel token, TypeFromToken token = mdtMethodDef →
        queryFailed (metadata_import.GetMemberProps token (ULONG_cast kNameMaxSize)).hr
          (metadata_import.GetMemberProps token (ULONG_cast kNameMaxSize)).name_len →
        (GetFunctionInfo kNameMaxSize metadata_import (fuel + 1) token).map Prod.fst
          = some default ∧
        (GetTypeInfo kNameMaxSize metadata_import (fuel + 2) token).map Prod.fst
          = some default) ∧
    (default : AssemblyInfo).name = [] ∧ (default : ModuleInfo).path = [] ∧
    (default : TypeInfo).name = [] ∧ (default : FunctionInfo).name = [] := by
  have member : ∀ fuel token, isMemberToken token →
      queryFailed (memberProps kNameMaxSize metadata_import token).hr
        (memberProps kNameMaxSize metadata_import token).name_len →
      (GetFunctionInfo kNameMaxSize metadata_import (fuel + 1) token).map Prod.fst
        = some default ∧
      (GetTypeInfo kNameMaxSize metadata_import (fuel + 2) token).map Prod.fst
        = some default := by
    intro fuel token hm hq
    have hF : ∀ n, GetFunctionInfo kNameMaxSize metadata_import (n + 1) token
        = some (default, [memberQuery token]) := by
      intro n; rw [GetFunctionInfo_member _ _ _ _ hm, if_pos hq]
    refine ⟨by rw [hF]; rfl, ?_⟩
    rw [GetTypeInfo_member _ _ _ _ hm, hF]; rfl
  refine ⟨?_, ?_, ?_, ?_, ?_, ?_, ?_, ?_, rfl, rfl, rfl, rfl⟩
  · intro id h; rw [GetAssemblyInfo_eq, if_pos h]
  · intro ref h; rw [GetAssemblyName_eq, if_pos h]
  · intro id h
    unfold GetModuleInfo
    simp only [guard_iff, decide_eq_true_eq]
    rw [if_pos h]
  · intro fuel token hk h; rw [GetTypeInfo_typeDef _ _ _ _ hk, if_pos h]; rfl
  · intro fuel token hk h; rw [GetTypeInfo_typeRef _ _ _ _ hk, if_pos h]; rfl
  · intro fuel token hk _; rw [GetTypeInfo_moduleRef _ _ _ _ hk]; rfl
  · intro fuel token hk h
    have hm : isMemberToken token := Or.inl hk
    apply member fuel token hm
    simpa [memberProps, hk] using h
  · intro fuel token hk h
    have hm : isMemberToken token := Or.inr hk
    have h2 : ¬ (mdtMethodDef = mdtMemberRef) := by decide
    apply member fuel token hm
    simpa [memberProps, hk, h2] using h

/-- C5 at concrete inputs: an unknown assembly, reference and module, and
tokens of each kind whose query fails. -/
theorem C5_failed_query_gives_default_witness :
    GetAssemblyInfo 1024 exampleInfo 8 = default ∧
    GetAssemblyName 1024 exampleReferences 0x23000003 = [] ∧
    GetModuleInfo 1024 exampleInfo 4 = default ∧
    (GetTypeInfo 1024 exampleImport 1 0x02000002).map Prod.fst = some default ∧
    (GetTypeInfo 1024 exampleImport 1 0x01000002).map Prod.fst = some default ∧
    (GetFunctionInfo 1024 exampleImport 1 0x0a000003).map Prod.fst = some default ∧
    (GetTypeInfo 1024 exampleImport 2 0x0a000003).map Prod.fst = some default ∧
    (GetFunctionInfo 1024 exampleImport 1 0x06000003).map Prod.fst = some default ∧
    (GetTypeInfo 1024 exampleImport 2 0x06000003).map Prod.fst = some default :=
  have h := C5_failed_query_gives_default 1024 exampleInfo exampleImport exampleReferences
  ⟨h.1 8 (by decide),
   h.2.1 0x23000003 (by decide),
   h.2.2.1 4 (by decide),
   h.2.2.2.1 0 0x02000002 (by decide) (by decide),
   h.2.2.2.2.1 0 0x01000002 (by decide) (by decide),
   (h.2.2.2.2.2.2.1 0 0x0a000003 (by decide) (by decide)).1,
   (h.2.2.2.2.2.2.1 0 0x0a000003 (by decide) (by decide)).2,
   (h.2.2.2.2.2.2.2.1 0 0x06000003 (by decide) (by decide)).1,
   (h.2.2.2.2.2.2.2.1 0 0x06000003 (by decide) (by decide)).2⟩

/-- C6: for a member-reference or method-definition token whose member query
succeeds with a non-zero name length, `GetFunctionInfo` returns a record that
carries the token and the trimmed function name even when the resolution of
the parent token yields the default record; the owning type is then the
default `TypeInfo`, and the function record is not the default record. -/
theorem C6_function_with_unresolved_parent (kNameMaxSize : Nat)
    (metadata_import : IMetaDataImport) (fuel : Nat) (token : mdToken)
    (hkind : TypeFromToken token = mdtMemberRef ∨ TypeFromToken token = mdtMethodDef)
    (hquery : ¬ queryFailed (memberProps kNameMaxSize metadata_import token).hr
                (memberProps kNameMaxSize metadata_import token).name_len)
    (hparent : (GetTypeInfo kNameMaxSize metadata_import fuel
                  (memberProps kNameMaxSize metadata_import token).parent_token).map Prod.fst
                = some default) :
    (GetFunctionInfo kNameMaxSize metadata_import (fuel + 1) token).map Prod.fst
      = some { id := token,
               name := (fillBuffer kNameMaxSize
                          (memberProps kNameMaxSize metadata_import token).written).take
                        ((memberProps kNameMaxSize metadata_import token).name_len.val - 1),
               type := default } ∧
    ∀ f, (GetFunctionInfo kNameMaxSize metadata_import (fuel + 1) token).map Prod.fst = some f →
      f.id = token ∧ f.type = default ∧ f ≠ default := by
  have hm : isMemberToken token := hkind
  have hres : (GetFunctionInfo kNameMaxSize metadata_import (fuel + 1) token).map Prod.fst
      = some { id := token,
               name := (fillBuffer kNameMaxSize
                          (memberProps kNameMaxSize metadata_import token).written).take
                        ((memberProps kNameMaxSize metadata_import token).name_len.val - 1),
               type := default } := by
    rw [GetFunctionInfo_member _ _ _ _ hm, if_neg hquery]
    cases hT : GetTypeInfo kNameMaxSize metadata_import fuel
        (memberProps kNameMaxSize metadata_import token).parent_token with
    | none => rw [hT] at hparent; cases hparent
    | some p =>
      rw [hT] at hparent
      simp only [Option.map_some', Option.some.injEq] at hparent
      simp only [Option.map_some', hparent, trimmed]
  refine ⟨hres, ?_⟩
  intro f hf
  rw [hres] at hf
  cases hf
  refine ⟨rfl, rfl, ?_⟩
  intro hdef
  have hid : token = 0 := congrArg FunctionInfo.id hdef
  rw [hid] at hkind
  revert hkind
  decide

/-- C6 at the method-definition `0x06000002`, named `"Go"`, whose parent is a
type-specification token. -/
theorem C6_function_with_unresolved_parent_witness :
    (GetFunctionInfo 1024 exampleImport 2 0x06000002).map Prod.fst
      = some { id := 0x06000002, name := wstr "Go", type := default } :=
  (C6_function_with_unresolved_parent 1024 exampleImport 1 0x06000002
    (by decide) (by decide) (by decide)).1

/-- C7: for a member-reference or method-definition token, `GetTypeInfo` returns
the owning-type field of what `GetFunctionInfo` returns for the same token, and
that field is what `GetTypeInfo` returns for the parent token reported by the
member query, or the default `TypeInfo` when the member query fails. -/
theorem C7_member_type_via_function (kNameMaxSize : Nat) (metadata_import : IMetaDataImport)
    (token : mdToken)
    (hkind : TypeFromToken token = mdtMemberRef ∨ TypeFromToken token = mdtMethodDef) :
    (∀ fuel, (GetTypeInfo kNameMaxSize metadata_import (fuel + 1) token).map Prod.fst
        = (GetFunctionInfo kNameMaxSize metadata_import fuel token).map (fun p => p.1.type)) ∧
    (∀ fuel, (GetFunctionInfo kNameMaxSize metadata_import (fuel + 1) token).map
          (fun p => p.1.type)
        = if queryFailed (memberProps kNameMaxSize metadata_import token).hr
              (memberProps kNameMaxSize metadata_import token).name_len
          then some default
          else (GetTypeInfo kNameMaxSize metadata_import fuel
                  (memberProps kNameMaxSize metadata_import token).parent_token).map
                 Prod.fst) ∧
    (∀ t, TypeResolvesTo kNameMaxSize metadata_import token t ↔
        ∃ f, FunctionResolvesTo kNameMaxSize metadata_import token f ∧ f.type = t) ∧
    (∀ t, TypeResolvesTo kNameMaxSize metadata_import token t ↔
        if queryFailed (memberProps kNameMaxSize metadata_import token).hr
              (memberProps kNameMaxSize metadata_import token).name_len
        then t = default
        else TypeResolvesTo kNameMaxSize metadata_import
               (memberProps kNameMaxSize metadata_import token).parent_token t) := by
  have hm : isMemberToken token := hkind
  have h1 : ∀ fuel, (GetTypeInfo kNameMaxSize metadata_import (fuel + 1) token).map Prod.fst
      = (GetFunctionInfo kNameMaxSize metadata_import fuel token).map (fun p => p.1.type) := by
    intro fuel
    rw [GetTypeInfo_member _ _ _ _ hm]
    cases GetFunctionInfo kNameMaxSize metadata_import fuel token <;> rfl
  have h2 : ∀ fuel, (GetFunctionInfo kNameMaxSize metadata_import (fuel + 1) token).map
        (fun p => p.1.type)
      = if queryFailed (memberProps kNameMaxSize metadata_import token).hr
            (memberProps kNameMaxSize metadata_import token).name_len
        then some default
        else (GetTypeInfo kNameMaxSize metadata_import fuel
                (memberProps kNameMaxSize metadata_import token).parent_token).map
               Prod.fst := by
    intro fuel
    rw [GetFunctionInfo_member _ _ _ _ hm]
    split
    · rfl
    · cases GetTypeInfo kNameMaxSize metadata_import fuel
        (memberProps kNameMaxSize metadata_import token).parent_token <;> rfl
  have hzeroT : ∀ t, (GetTypeInfo kNameMaxSize metadata_import 0 token).map Prod.fst
      ≠ some t := by
    intro t; rw [GetTypeInfo]; simp
  have hzeroF : ∀ t, (GetFunctionInfo kNameMaxSize metadata_import 0 token).map
      (fun p => p.1.type) ≠ some t := by
    intro t; rw [GetFunctionInfo]; simp
  refine ⟨h1, h2, ?_, ?_⟩
  · intro t
    constructor
    · rintro ⟨fuel, hf⟩
      cases fuel with
      | zero => exact absurd hf (hzeroT t)
      | succ n =>
        rw [h1 n] at hf
        cases hF : GetFunctionInfo kNameMaxSize metadata_import n token with
        | none => rw [hF] at hf; cases hf
        | some p =>
          rw [hF] at hf
          simp only [Option.map_some', Option.some.injEq] at hf
          exact ⟨p.1, ⟨n, by rw [hF]; rfl⟩, hf⟩
    · rintro ⟨f, ⟨fuel, hf⟩, rfl⟩
      refine ⟨fuel + 1, ?_⟩
      rw [h1 fuel]
      cases hF : GetFunctionInfo kNameMaxSize metadata_import fuel token with
      | none => rw [hF] at hf; cases hf
      | some p =>
        rw [hF] at hf
        simp only [Option.map_some', Option.some.injEq] at hf
        simp only [Option.map_some', hf]
  · intro t
    constructor
    · rintro ⟨fuel, hf⟩
      cases fuel with
      | zero => exact absurd hf (hzeroT t)
      | succ n =>
        rw [h1 n] at hf
        cases n with
        | zero => exact absurd hf (hzeroF t)
        | succ k =>
          rw [h2 k] at hf
          split
          · rename_i hq; rw [if_pos hq] at hf; cases hf; rfl
          · rename_i hq; rw [if_neg hq] at hf; exact ⟨k, hf⟩
    · intro h
      split at h
      · rename_i hq
        refine ⟨2, ?_⟩
        rw [h1 1, h2 0, if_pos hq, h]
      · rename_i hq
        obtain ⟨k, hk⟩ := h
        refine ⟨k + 2, ?_⟩
        rw [h1 (k + 1), h2 k, if_neg hq, hk]

/-- C7 at the member-reference `0x0a000001`, whose reported parent is the
type-reference `0x01000001` named `"Bar"`. -/
theorem C7_member_type_via_function_witness :
    (GetTypeInfo 1024 exampleImport 3 0x0a000001).map Prod.fst
      = (GetFunctionInfo 1024 exampleImport 2 0x0a000001).map (fun p => p.1.type) ∧
    (GetFunctionInfo 1024 exampleImport 2 0x0a000001).map (fun p => p.1.type)
      = some { id := 0x01000001, name := wstr "Bar" } :=
  ⟨(C7_member_type_via_function 1024 exampleImport 0x0a000001 (by decide)).1 2,
   ((C7_member_type_via_function 1024 exampleImport 0x0a000001 (by decide)).2.1 1).trans
     (by decide)⟩

/-- C8: for a token whose kind is type-specification, or any kind outside the
six of the dispatch, `GetTypeInfo` returns the default `TypeInfo` and issues no
metadata query; `GetFunctionInfo` returns the default `FunctionInfo`, again
without a query, for every token whose kind is neither member-reference nor
method-definition. -/
theorem C8_unsupported_kind_gives_default (kNameMaxSize : Nat)
    (metadata_import : IMetaDataImport) (fuel : Nat) (token : mdToken) :
    (TypeFromToken token = mdtTypeSpec ∨
        TypeFromToken token ∉
          [mdtTypeDef, mdtTypeRef, mdtTypeSpec, mdtModuleRef, mdtMemberRef, mdtMethodDef] →
      GetTypeInfo kNameMaxSize metadata_import (fuel + 1) token = some (default, [])) ∧
    (TypeFromToken token ≠ mdtMemberRef ∧ TypeFromToken token ≠ mdtMethodDef →
      GetFunctionInfo kNameMaxSize metadata_import (fuel + 1) token = some (default, [])) := by
  constructor
  · intro h
    apply GetTypeInfo_unhandled
    all_goals
      rcases h with h | h
      · rw [h]; decide
      · intro e; apply h; rw [e]; decide
  · rintro ⟨h1, h2⟩
    apply GetFunctionInfo_other
    rintro (h | h)
    · exact h1 h
    · exact h2 h

/-- C8 at the type-specification `0x1b000001`, at the nil token, and at the
type-definition `0x02000001` passed to `GetFunctionInfo`. -/
theorem C8_unsupported_kind_gives_default_witness :
    GetTypeInfo 1024 exampleImport 1 0x1b000001 = some (default, []) ∧
    GetTypeInfo 1024 exampleImport 1 mdTokenNil = some (default, []) ∧
    GetFunctionInfo 1024 exampleImport 1 0x02000001 = some (default, []) :=
  ⟨(C8_unsupported_kind_gives_default 1024 exampleImport 0 0x1b000001).1
      (Or.inl (by decide)),
   (C8_unsupported_kind_gives_default 1024 exampleImport 0 mdTokenNil).1
      (Or.inr (by decide)),
   (C8_unsupported_kind_gives_default 1024 exampleImport 0 0x02000001).2
      ⟨by decide, by decide⟩⟩

/-- The scan of `FindAssemblyRef` returns the first match, or the nil token. -/
theorem FindAssemblyRef_loop_eq (K : Nat) (ctx : IMetaDataAssemblyImport) (name : WSTRING)
    (refs : List mdAssemblyRef) :
    FindAssemblyRef.loop K ctx name refs
      = (refs.find? (fun r => decide (GetAssemblyName K ctx r = name))).getD
          mdAssemblyRefNil := by
  induction refs with
  | nil => rfl
  | cons r rest ih =>
    rw [FindAssemblyRef.loop, List.find?_cons]
    by_cases h : GetAssemblyName K ctx r = name
    · simp [h]
    · simp [h, ih]

/-- C9: `FindAssemblyRef` returns the first reference, in enumeration order,
whose resolved name equals the given name exactly, and the nil token when no
enumerated reference has that name; for an enumeration of reference tokens
(which never yields the nil token itself) it returns the nil token if and only
if no enumerated reference has that name. -/
theorem C9_find_assembly_ref_first_match (kNameMaxSize : Nat)
    (ctx : IMetaDataAssemblyImport) (name : WSTRING) :
    (∀ pre r post, EnumAssemblyRefs ctx = pre ++ r :: post →
        (∀ x ∈ pre, GetAssemblyName kNameMaxSize ctx x ≠ name) →
        GetAssemblyName kNameMaxSize ctx r = name →
        FindAssemblyRef kNameMaxSize ctx name = r) ∧
    ((∀ r ∈ EnumAssemblyRefs ctx, GetAssemblyName kNameMaxSize ctx r ≠ name) →
        FindAssemblyRef kNameMaxSize ctx name = mdAssemblyRefNil) ∧
    (mdAssemblyRefNil ∉ EnumAssemblyRefs ctx →
        (FindAssemblyRef kNameMaxSize ctx name = mdAssemblyRefNil ↔
          ∀ r ∈ EnumAssemblyRefs ctx, GetAssemblyName kNameMaxSize ctx r ≠ name)) := by
  have hnone : (∀ r ∈ EnumAssemblyRefs ctx, GetAssemblyName kNameMaxSize ctx r ≠ name) →
      FindAssemblyRef kNameMaxSize ctx name = mdAssemblyRefNil := by
    intro h
    rw [FindAssemblyRef, FindAssemblyRef_loop_eq]
    have : (EnumAssemblyRefs ctx).find?
        (fun r => decide (GetAssemblyName kNameMaxSize ctx r = name)) = none := by
      rw [List.find?_eq_none]
      intro r hr; simpa using h r hr
    rw [this]; rfl
  refine ⟨?_, hnone, ?_⟩
  · intro pre r post he hpre hr
    rw [FindAssemblyRef, FindAssemblyRef_loop_eq, he]
    have : (pre ++ r :: post).find?
        (fun r => decide (GetAssemblyName kNameMaxSize ctx r = name)) = some r := by
      rw [List.find?_append]
      have hp : pre.find? (fun r => decide (GetAssemblyName kNameMaxSize ctx r = name))
          = none := by
        rw [List.find?_eq_none]
        intro x hx; simpa using hpre x hx
      rw [hp, List.find?_cons]
      simp [hr]
    rw [this]; rfl
  · intro hnil
    refine ⟨?_, hnone⟩
    intro hres r hr hname
    rw [FindAssemblyRef, FindAssemblyRef_loop_eq] at hres
    cases hf : (EnumAssemblyRefs ctx).find?
        (fun r => decide (GetAssemblyName kNameMaxSize ctx r = name)) with
    | none =>
      rw [List.find?_eq_none] at hf
      exact absurd hname (by simpa using hf r hr)
    | some y =>
      rw [hf] at hres
      simp only [Option.getD_some] at hres
      have hy : y ∈ EnumAssemblyRefs ctx := List.mem_of_find?_eq_some hf
      rw [hres] at hy
      exact hnil hy

/-- C9 on the references `["Newtonsoft.Json", "System.Data"]`: the second
reference is found by its name, and an absent name gives the nil token. -/
theorem C9_find_assembly_ref_first_match_witness :
    FindAssemblyRef 1024 exampleReferences (wstr "System.Data") = 0x23000002 ∧
    FindAssemblyRef 1024 exampleReferences (wstr "Foo") = mdAssemblyRefNil ∧
    (FindAssemblyRef 1024 exampleReferences (wstr "Foo") = mdAssemblyRefNil ↔
      ∀ r ∈ EnumAssemblyRefs exampleReferences,
        GetAssemblyName 1024 exampleReferences r ≠ wstr "Foo") :=
  ⟨(C9_find_assembly_ref_first_match 1024 exampleReferences (wstr "System.Data")).1
      [0x23000001] 0x23000002 [] (by decide) (by decide) (by decide),
   (C9_find_assembly_ref_first_match 1024 exampleReferences (wstr "Foo")).2.1 (by decide),
   (C9_find_assembly_ref_first_match 1024 exampleReferences (wstr "Foo")).2.2 (by decide)⟩

theorem trimmed_length (size : Nat) (written : WSTRING) (n : ULONG) (h : n.val ≤ size) :
    (trimmed size written n).length = n.val - 1 := by
  rw [trimmed, List.length_take, fillBuffer_length]
  omega

theorem trimmed_terminated (size : Nat) (s : WSTRING) (n : ULONG)
    (hn : n.val = s.length + 1) (h : n.val ≤ size) :
    trimmed size (s ++ [0]) n = s := by
  rw [trimmed, fillBuffer, hn]
  simp only [Nat.add_sub_cancel, List.append_assoc]
  rw [List.take_take, List.take_append_eq_append_take]
  have : min s.length size = s.length := by omega
  simp [this]

/-- C10: when the query succeeds and reports a name length `L` with
`1 ≤ L ≤ kNameMaxSize`, `GetAssemblyInfo`, `GetAssemblyName`, `GetTypeInfo` (on
type-definition and type-reference tokens) and `GetFunctionInfo` return the
queried id or token unchanged together with a name that is exactly the first
`L - 1` code units of the buffer: the written name without its single trailing
terminator. -/
theorem C10_success_returns_trimmed_name (kNameMaxSize : Nat) (info : ICorProfilerInfo3)
    (metadata_import : IMetaDataImport) (assembly_import : IMetaDataAssemblyImport) :
    (∀ assembly_id,
        0 ≤ (info.GetAssemblyInfo assembly_id (ULONG_cast kNameMaxSize)).hr →
        1 ≤ (info.GetAssemblyInfo assembly_id (ULONG_cast kNameMaxSize)).name_len.val →
        (info.GetAssemblyInfo assembly_id (ULONG_cast kNameMaxSize)).name_len.val
          ≤ kNameMaxSize →
        GetAssemblyInfo kNameMaxSize info assembly_id
          = { id := assembly_id,
              name := trimmed kNameMaxSize
                (info.GetAssemblyInfo assembly_id (ULONG_cast kNameMaxSize)).written
                (info.GetAssemblyInfo assembly_id (ULONG_cast kNameMaxSize)).name_len }) ∧
    (∀ assembly_ref,
        0 ≤ (assembly_import.GetAssemblyRefProps assembly_ref (ULONG_cast kNameMaxSize)).hr →
        1 ≤ (assembly_import.GetAssemblyRefProps assembly_ref
              (ULONG_cast kNameMaxSize)).name_len.val →
        (assembly_import.GetAssemblyRefProps assembly_ref
              (ULONG_cast kNameMaxSize)).name_len.val ≤ kNameMaxSize →
        GetAssemblyName kNameMaxSize assembly_import assembly_ref
          = trimmed kNameMaxSize
              (assembly_import.GetAssemblyRefProps assembly_ref
                (ULONG_cast kNameMaxSize)).written
              (assembly_import.GetAssemblyRefProps assembly_ref
                (ULONG_cast kNameMaxSize)).name_len) ∧
    (∀ fuel token, TypeFromToken token = mdtTypeDef →
        0 ≤ (metadata_import.GetTypeDefProps token (ULONG_cast kNameMaxSize)).hr →
        1 ≤ (metadata_import.GetTypeDefProps token (ULONG_cast kNameMaxSize)).name_len.val →
        (metadata_import.GetTypeDefProps token (ULONG_cast kNameMaxSize)).name_len.val
          ≤ kNameMaxSize →
        (GetTypeInfo kNameMaxSize metadata_import (fuel + 1) token).map Prod.fst
          = some { id := token,
                   name := trimmed kNameMaxSize
                     (metadata_import.GetTypeDefProps token (ULONG_cast kNameMaxSize)).written
                     (metadata_import.GetTypeDefProps token
                       (ULONG_cast kNameMaxSize)).name_len }) ∧
    (∀ fuel token, TypeFromToken token = mdtTypeRef →
        0 ≤ (metadata_import.GetTypeRefProps token (ULONG_cast kNameMaxSize)).hr →
        1 ≤ (metadata_import.GetTypeRefProps token (ULONG_cast kNameMaxSize)).name_len.val →
        (metadata_import.GetTypeRefProps token (ULONG_cast kNameMaxSize)).name_len.val
          ≤ kNameMaxSize →
        (GetTypeInfo kNameMaxSize metadata_import (fuel + 1) token).map Prod.fst
          = some { id := token,
                   name := trimmed kNameMaxSize
                     (metadata_import.GetTypeRefProps token (ULONG_cast kNameMaxSize)).written
                     (metadata_import.GetTypeRefProps token
                       (ULONG_cast kNameMaxSize)).name_len }) ∧
    (∀ fuel token type,
        TypeFromToken token = mdtMemberRef ∨ TypeFromToken token = mdtMethodDef →
        0 ≤ (memberProps kNameMaxSize metadata_import token).hr →
        1 ≤ (memberProps kNameMaxSize metadata_import token).name_len.val →
        (memberProps kNameMaxSize metadata_import token).name_len.val ≤ kNameMaxSize →
        (GetTypeInfo kNameMaxSize metadata_import fuel
            (memberProps kNameMaxSize metadata_import token).parent_token).map Prod.fst
          = some type →
        (GetFunctionInfo kNameMaxSize metadata_import (fuel + 1) token).map Prod.fst
          = some { id := token,
                   name := trimmed kNameMaxSize
                     (memberProps kNameMaxSize metadata_import token).written
                     (memberProps kNameMaxSize metadata_import token).name_len,
                   type := type }) ∧
    (∀ fuel token f,
        TypeFromToken token = mdtMemberRef ∨ TypeFromToken token = mdtMethodDef →
        0 ≤ (memberProps kNameMaxSize metadata_import token).hr →
        1 ≤ (memberProps kNameMaxSize metadata_import token).name_len.val →
        (memberProps kNameMaxSize metadata_import token).name_len.val ≤ kNameMaxSize →
        (GetFunctionInfo kNameMaxSize metadata_import fuel token).map Prod.fst = some f →
        f.id = token ∧
        f.name = trimmed kNameMaxSize
                   (memberProps kNameMaxSize metadata_import token).written
                   (memberProps kNameMaxSize metadata_import token).name_len) ∧
    (∀ (written : WSTRING) (name_len : ULONG), 1 ≤ name_len.val →
        name_len.val ≤ kNameMaxSize →
        trimmed kNameMaxSize written name_len
          = (fillBuffer kNameMaxSize written).take (name_len.val - 1) ∧
        (trimmed kNameMaxSize written name_len).length = name_len.val - 1) ∧
    (∀ (s : WSTRING) (name_len : ULONG), name_len.val = s.length + 1 →
        name_len.val ≤ kNameMaxSize →
        trimmed kNameMaxSize (s ++ [0]) name_len = s) := by
  have ok : ∀ (hr : HRESULT) (n : ULONG), 0 ≤ hr → 1 ≤ n.val → ¬ queryFailed hr n := by
    intro hr n h1 h2 hq
    rcases hq with hq | hq
    · exact absurd hq (not_lt.mpr h1)
    · rw [hq] at h2; exact absurd h2 (by decide)
  have fn : ∀ fuel token, isMemberToken token →
      ¬ queryFailed (memberProps kNameMaxSize metadata_import token).hr
          (memberProps kNameMaxSize metadata_import token).name_len →
      (GetFunctionInfo kNameMaxSize metadata_import (fuel + 1) token).map Prod.fst
        = (GetTypeInfo kNameMaxSize metadata_import fuel
            (memberProps kNameMaxSize metadata_import token).parent_token).map
            (fun p => { id := token,
                        name := trimmed kNameMaxSize
                          (memberProps kNameMaxSize metadata_import token).written
                          (memberProps kNameMaxSize metadata_import token).name_len,
                        type := p.1 }) := by
    intro fuel token hm hq
    rw [GetFunctionInfo_member _ _ _ _ hm, if_neg hq]
    cases GetTypeInfo kNameMaxSize metadata_import fuel
        (memberProps kNameMaxSize metadata_import token).parent_token <;> rfl
  refine ⟨?_, ?_, ?_, ?_, ?_, ?_, ?_, ?_⟩
  · intro id h1 h2 _
    rw [GetAssemblyInfo_eq, if_neg (ok _ _ h1 h2)]
  · intro ref h1 h2 _
    rw [GetAssemblyName_eq, if_neg (ok _ _ h1 h2)]
  · intro fuel token hk h1 h2 _
    rw [GetTypeInfo_typeDef _ _ _ _ hk, if_neg (ok _ _ h1 h2)]; rfl
  · intro fuel token hk h1 h2 _
    rw [GetTypeInfo_typeRef _ _ _ _ hk, if_neg (ok _ _ h1 h2)]; rfl
  · intro fuel token type hk h1 h2 _ hp
    rw [fn fuel token hk (ok _ _ h1 h2)]
    cases hT : GetTypeInfo kNameMaxSize metadata_import fuel
        (memberProps kNameMaxSize metadata_import token).parent_token with
    | none => rw [hT] at hp; cases hp
    | some p =>
      rw [hT] at hp
      simp only [Option.map_some', Option.some.injEq] at hp
      simp only [Option.map_some', hp]
  · intro fuel token f hk h1 h2 _ hf
    cases fuel with
    | zero => rw [GetFunctionInfo] at hf; cases hf
    | succ n =>
      rw [fn n token hk (ok _ _ h1 h2)] at hf
      cases hT : GetTypeInfo kNameMaxSize metadata_import n
          (memberProps kNameMaxSize metadata_import token).parent_token with
      | none => rw [hT] at hf; cases hf
      | some p =>
        rw [hT] at hf
        simp only [Option.map_some', Option.some.injEq] at hf
        rw [← hf]
        exact ⟨rfl, rfl⟩
  · intro written n _ h
    exact ⟨rfl, trimmed_length _ _ _ h⟩
  · intro s n hn h
    exact trimmed_terminated _ s n hn h

/-- C10 at concrete inputs: assembly 7 (`"App.A"`), the reference
`0x23000001` (`"Newtonsoft.Json"`), the type-definition `0x02000001`
(`"Foo"`), the type-reference `0x01000001` (`"Bar"`) and the
method-definition `0x06000001` (`"Run"` of `"Foo"`). -/
theorem C10_success_returns_trimmed_name_witness :
    GetAssemblyInfo 1024 exampleInfo 7 = { id := 7, name := wstr "App.A" } ∧
    GetAssemblyName 1024 exampleReferences 0x23000001 = wstr "Newtonsoft.Json" ∧
    (GetTypeInfo 1024 exampleImport 1 0x02000001).map Prod.fst
      = some { id := 0x02000001, name := wstr "Foo" } ∧
    (GetTypeInfo 1024 exampleImport 1 0x01000001).map Prod.fst
      = some { id := 0x01000001, name := wstr "Bar" } ∧
    (GetFunctionInfo 1024 exampleImport 2 0x06000001).map Prod.fst
      = some { id := 0x06000001, name := wstr "Run",
               type := { id := 0x02000001, name := wstr "Foo" } } :=
  have h := C10_success_returns_trimmed_name 1024 exampleInfo exampleImport exampleReferences
  ⟨(h.1 7 (by decide) (by decide) (by decide)).trans (by decide),
   (h.2.1 0x23000001 (by decide) (by decide) (by decide)).trans (by decide),
   (h.2.2.1 0 0x02000001 (by decide) (by decide) (by decide) (by decide)).trans (by decide),
   (h.2.2.2.1 0 0x01000001 (by decide) (by decide) (by decide) (by decide)).trans
     (by decide),
   (h.2.2.2.2.1 1 0x06000001 { id := 0x02000001, name := wstr "Foo" }
      (by decide) (by decide) (by decide) (by decide) (by decide)).trans (by decide)⟩

/-! ## Edge cases of the resolvers -/

theorem trimmed_one (size : Nat) (written : WSTRING) (n : ULONG) (h : n.val = 1) :
    trimmed size written n = [] := by
  rw [trimmed, h]; rfl

theorem not_queryFailed_of_one (hr : HRESULT) (n : ULONG) (h0 : 0 ≤ hr) (h : n.val = 1) :
    ¬ queryFailed hr n := by
  rintro (hq | hq)
  · exact absurd hq (not_lt.mpr h0)
  · rw [h] at hq; exact absurd hq (by decide)

/-- C11, as stated, fails: on a surface where the query succeeds with a
reported name length of 1, `GetAssemblyInfo`, `GetTypeInfo` and
`GetFunctionInfo` return the id or token with an empty name, which is not the
default record returned for a failed query. -/
theorem C11_length_one_not_default_counterexample :
    GetAssemblyInfo 1024 exampleEmptyNameInfo 9 = { id := 9, name := [] } ∧
    GetAssemblyInfo 1024 exampleEmptyNameInfo 9 ≠ default ∧
    GetAssemblyInfo 1024 exampleEmptyNameInfo 8 = default ∧
    (GetTypeInfo 1024 exampleEmptyNameImport 1 0x02000005).map Prod.fst
      = some { id := 0x02000005, name := [] } ∧
    (GetTypeInfo 1024 exampleEmptyNameImport 1 0x02000005).map Prod.fst ≠ some default ∧
    (GetFunctionInfo 1024 exampleEmptyNameImport 2 0x06000005).map Prod.fst
      = some { id := 0x06000005, name := [], type := default } ∧
    (GetFunctionInfo 1024 exampleEmptyNameImport 2 0x06000005).map Prod.fst
      ≠ some default := by
  decide

/-- C11, amended: when the query issued for a handle or token succeeds with a
reported name length of 1, `GetAssemblyInfo` returns `{assembly_id, ""}`, which
is the default record exactly when the assembly id is 0; `GetTypeInfo` on a
type-definition or type-reference token returns `{token, ""}`, which is not the
default record; `GetFunctionInfo` on a member-reference or method-definition
token returns `{token, "", type}` whenever the resolution of the reported
parent returns `type`, which is not the default record, and `GetTypeInfo` on
that member token returns `type`.  On a module-reference token `GetTypeInfo`
returns the default record whatever the query reports. -/
theorem C11_length_one_keeps_identity (kNameMaxSize : Nat) (info : ICorProfilerInfo3)
    (metadata_import : IMetaDataImport) :
    (∀ assembly_id,
        0 ≤ (info.GetAssemblyInfo assembly_id (ULONG_cast kNameMaxSize)).hr →
        (info.GetAssemblyInfo assembly_id (ULONG_cast kNameMaxSize)).name_len.val = 1 →
        GetAssemblyInfo kNameMaxSize info assembly_id = { id := assembly_id, name := [] } ∧
        (GetAssemblyInfo kNameMaxSize info assembly_id = default ↔ assembly_id = 0)) ∧
    (∀ fuel token, TypeFromToken token = mdtTypeDef →
        0 ≤ (metadata_import.GetTypeDefProps token (ULONG_cast kNameMaxSize)).hr →
        (metadata_import.GetTypeDefProps token (ULONG_cast kNameMaxSize)).name_len.val = 1 →
        (GetTypeInfo kNameMaxSize metadata_import (fuel + 1) token).map Prod.fst
          = some { id := token, name := [] } ∧
        ({ id := token, name := [] } : TypeInfo) ≠ default) ∧
    (∀ fuel token, TypeFromToken token = mdtTypeRef →
        0 ≤ (metadata_import.GetTypeRefProps token (ULONG_cast kNameMaxSize)).hr →
        (metadata_import.GetTypeRefProps token (ULONG_cast kNameMaxSize)).name_len.val = 1 →
        (GetTypeInfo kNameMaxSize metadata_import (fuel + 1) token).map Prod.fst
          = some { id := token, name := [] } ∧
        ({ id := token, name := [] } : TypeInfo) ≠ default) ∧
    (∀ fuel token type,
        TypeFromToken token = mdtMemberRef ∨ TypeFromToken token = mdtMethodDef →
        0 ≤ (memberProps kNameMaxSize metadata_import token).hr →
        (memberProps kNameMaxSize metadata_import token).name_len.val = 1 →
        (GetTypeInfo kNameMaxSize metadata_import fuel
            (memberProps kNameMaxSize metadata_import token).parent_token).map Prod.fst
          = some type →
        (GetFunctionInfo kNameMaxSize metadata_import (fuel + 1) token).map Prod.fst
          = some { id := token, name := [], type := type } ∧
        ({ id := token, name := [], type := type } : FunctionInfo) ≠ default ∧
        (GetTypeInfo kNameMaxSize metadata_import (fuel + 2) token).map Prod.fst
          = some type) ∧
    (∀ fuel token, TypeFromToken token = mdtModuleRef →
        (GetTypeInfo kNameMaxSize metadata_import (fuel + 1) token).map Prod.fst
          = some default) := by
  have nz : ∀ token : mdToken, TypeFromToken token ≠ 0 → token ≠ 0 := by
    intro token h e; apply h; rw [e]; rfl
  refine ⟨?_, ?_, ?_, ?_, ?_⟩
  · intro id h0 h1
    have hq := not_queryFailed_of_one _ _ h0 h1
    have he : GetAssemblyInfo kNameMaxSize info id = { id := id, name := [] } := by
      rw [GetAssemblyInfo_eq, if_neg hq, trimmed_one _ _ _ h1]
    refine ⟨he, ?_⟩
    rw [he]
    constructor
    · intro h; exact congrArg AssemblyInfo.id h
    · intro h; rw [h]; rfl
  · intro fuel token hk h0 h1
    have hq := not_queryFailed_of_one _ _ h0 h1
    refine ⟨?_, ?_⟩
    · rw [GetTypeInfo_typeDef _ _ _ _ hk, if_neg hq, trimmed_one _ _ _ h1]; rfl
    · intro h
      exact nz token (by rw [hk]; decide) (congrArg TypeInfo.id h)
  · intro fuel token hk h0 h1
    have hq := not_queryFailed_of_one _ _ h0 h1
    refine ⟨?_, ?_⟩
    · rw [GetTypeInfo_typeRef _ _ _ _ hk, if_neg hq, trimmed_one _ _ _ h1]; rfl
    · intro h
      exact nz token (by rw [hk]; decide) (congrArg TypeInfo.id h)
  · intro fuel token type hk h0 h1 hp
    have hq := not_queryFailed_of_one _ _ h0 h1
    have hF : (GetFunctionInfo kNameMaxSize metadata_import (fuel + 1) token).map Prod.fst
        = some { id := token, name := [], type := type } := by
      rw [GetFunctionInfo_member _ _ _ _ hk, if_neg hq, trimmed_one _ _ _ h1]
      cases hT : GetTypeInfo kNameMaxSize metadata_import fuel
          (memberProps kNameMaxSize metadata_import token).parent_token with
      | none => rw [hT] at hp; cases hp
      | some p =>
        rw [hT] at hp
        simp only [Option.map_some', Option.some.injEq] at hp
        simp only [Option.map_some', hp]
    refine ⟨hF, ?_, ?_⟩
    · intro h
      have hz : TypeFromToken token ≠ 0 := by
        rcases hk with hk | hk <;> rw [hk] <;> decide
      exact nz token hz (congrArg FunctionInfo.id h)
    · rw [GetTypeInfo_member _ _ _ _ hk]
      cases hG : GetFunctionInfo kNameMaxSize metadata_import (fuel + 1) token with
      | none => rw [hG] at hF; cases hF
      | some p =>
        rw [hG] at hF
        simp only [Option.map_some', Option.some.injEq] at hF
        simp only [Option.map_some', hF]
  · intro fuel token hk
    rw [GetTypeInfo_moduleRef _ _ _ _ hk]; rfl

/-- C11 amended, at assembly 9, the type-definition `0x02000005`, the
type-reference `0x01000005`, the method-definition `0x06000005` and the
module-reference `0x1a000005`, each resolving with a reported name length
of 1. -/
theorem C11_length_one_keeps_identity_witness :
    GetAssemblyInfo 1024 exampleEmptyNameInfo 9 = { id := 9, name := [] } ∧
    (GetTypeInfo 1024 exampleEmptyNameImport 1 0x02000005).map Prod.fst
      = some { id := 0x02000005, name := [] } ∧
    (GetTypeInfo 1024 exampleEmptyNameImport 1 0x01000005).map Prod.fst
      = some { id := 0x01000005, name := [] } ∧
    (GetFunctionInfo 1024 exampleEmptyNameImport 2 0x06000005).map Prod.fst
      = some { id := 0x06000005, name := [], type := default } ∧
    (GetTypeInfo 1024 exampleEmptyNameImport 3 0x06000005).map Prod.fst = some default ∧
    (GetTypeInfo 1024 exampleEmptyNameImport 1 0x1a000005).map Prod.fst = some default :=
  have h := C11_length_one_keeps_identity 1024 exampleEmptyNameInfo exampleEmptyNameImport
  ⟨(h.1 9 (by decide) (by decide)).1,
   (h.2.1 0 0x02000005 (by decide) (by decide) (by decide)).1,
   (h.2.2.1 0 0x01000005 (by decide) (by decide) (by decide)).1,
   (h.2.2.2.1 1 0x06000005 default (by decide) (by decide) (by decide) (by decide)).1,
   (h.2.2.2.1 1 0x06000005 default (by decide) (by decide) (by decide) (by decide)).2.2,
   h.2.2.2.2 0 0x1a000005 (by decide)⟩

set_option maxRecDepth 20000 in
/-- C12 on the code: for a successful module query `GetModuleInfo` returns the
module id, the flags and the resolved owning assembly, but the path is the
whole 260-unit buffer, not its first `L - 1` code units.  For module 3, whose
path `"a.dll"` is reported with length 6, the returned path is `"a.dll"`
followed by 255 zero code units. -/
theorem C12_module_path_not_trimmed :
    (∀ (kNameMaxSize : Nat) (info : ICorProfilerInfo3) (module_id : ModuleID),
        ¬ queryFailed (info.GetModuleInfo2 module_id (ULONG_cast 260)).hr
            (info.GetModuleInfo2 module_id (ULONG_cast 260)).path_len →
        GetModuleInfo kNameMaxSize info module_id
          = { id := module_id,
              path := fillBuffer 260 (info.GetModuleInfo2 module_id (ULONG_cast 260)).written,
              assembly := GetAssemblyInfo kNameMaxSize info
                (info.GetModuleInfo2 module_id (ULONG_cast 260)).assembly_id,
              flags := (info.GetModuleInfo2 module_id (ULONG_cast 260)).module_flags } ∧
        (GetModuleInfo kNameMaxSize info module_id).path.length = 260) ∧
    GetModuleInfo 1024 exampleInfo 3
      = { id := 3, path := wstr "a.dll" ++ List.replicate 255 0,
          assembly := { id := 7, name := wstr "App.A" }, flags := 1 } ∧
    (exampleInfo.GetModuleInfo2 3 (ULONG_cast 260)).path_len.val = 6 ∧
    (GetModuleInfo 1024 exampleInfo 3).path.length = 260 ∧
    (GetModuleInfo 1024 exampleInfo 3).path
      ≠ (fillBuffer 260 (exampleInfo.GetModuleInfo2 3 (ULONG_cast 260)).written).take (6 - 1) := by
  refine ⟨?_, by decide, by decide, by decide, by decide⟩
  intro K info id hq
  have he : GetModuleInfo K info id
      = { id := id,
          path := fillBuffer 260 (info.GetModuleInfo2 id (ULONG_cast 260)).written,
          assembly := GetAssemblyInfo K info
            (info.GetModuleInfo2 id (ULONG_cast 260)).assembly_id,
          flags := (info.GetModuleInfo2 id (ULONG_cast 260)).module_flags } := by
    unfold GetModuleInfo
    simp only [guard_iff, decide_eq_true_eq]
    rw [if_neg hq]
  refine ⟨he, ?_⟩
  rw [he]
  exact fillBuffer_length 260 _

/-- C13, as stated, fails: a reference whose name cannot be resolved is given
the empty name and so matches a rule whose target assembly name is empty, and
a lookup of the empty name.  With the single unresolved reference
`0x23000001`, an integration whose only rule has an empty target name is
retained, and `FindAssemblyRef` with the empty name returns that reference. -/
theorem C13_unresolved_reference_matches_empty_counterexample :
    queryFailed (exampleUnresolvedReference.GetAssemblyRefProps 0x23000001 (ULONG_cast 1024)).hr
      (exampleUnresolvedReference.GetAssemblyRefProps 0x23000001 (ULONG_cast 1024)).name_len ∧
    EnumAssemblyRefs exampleUnresolvedReference = [0x23000001] ∧
    FilterIntegrationsByTarget 1024 [exampleIntegration "I" "" ""] exampleUnresolvedReference
      = [exampleIntegration "I" "" ""] ∧
    FindAssemblyRef 1024 exampleUnresolvedReference [] = 0x23000001 := by
  decide

/-- C13, amended: a reference whose name cannot be resolved has the empty
name, so it never counts as a match for a non-empty name.
`FilterIntegrationsByTarget` retains an integration all of whose rules have a
non-empty target assembly name only on account of a resolved reference, and
`FindAssemblyRef` called with a non-empty name returns either the nil token or
a resolved reference of that name. -/
theorem C13_unresolved_reference_never_matches_nonempty (kNameMaxSize : Nat)
    (ctx : IMetaDataAssemblyImport) :
    (∀ r, queryFailed (ctx.GetAssemblyRefProps r (ULONG_cast kNameMaxSize)).hr
            (ctx.GetAssemblyRefProps r (ULONG_cast kNameMaxSize)).name_len →
          GetAssemblyName kNameMaxSize ctx r = []) ∧
    (∀ (catalog : List Integration) (i : Integration),
        (∀ mr ∈ i.method_replacements, mr.target_method.assembly.name ≠ []) →
        (i ∈ FilterIntegrationsByTarget kNameMaxSize catalog ctx ↔
          i ∈ catalog ∧ ∃ mr ∈ i.method_replacements, ∃ r ∈ EnumAssemblyRefs ctx,
            ¬ queryFailed (ctx.GetAssemblyRefProps r (ULONG_cast kNameMaxSize)).hr
                (ctx.GetAssemblyRefProps r (ULONG_cast kNameMaxSize)).name_len ∧
            mr.target_method.assembly.name = GetAssemblyName kNameMaxSize ctx r)) ∧
    (∀ name : WSTRING, name ≠ [] →
        FindAssemblyRef kNameMaxSize ctx name = mdAssemblyRefNil ∨
        (FindAssemblyRef kNameMaxSize ctx name ∈ EnumAssemblyRefs ctx ∧
         GetAssemblyName kNameMaxSize ctx (FindAssemblyRef kNameMaxSize ctx name) = name ∧
         ¬ queryFailed
            (ctx.GetAssemblyRefProps (FindAssemblyRef kNameMaxSize ctx name)
              (ULONG_cast kNameMaxSize)).hr
            (ctx.GetAssemblyRefProps (FindAssemblyRef kNameMaxSize ctx name)
              (ULONG_cast kNameMaxSize)).name_len)) := by
  have hfail : ∀ r, queryFailed (ctx.GetAssemblyRefProps r (ULONG_cast kNameMaxSize)).hr
            (ctx.GetAssemblyRefProps r (ULONG_cast kNameMaxSize)).name_len →
          GetAssemblyName kNameMaxSize ctx r = [] := by
    intro r h; rw [GetAssemblyName_eq, if_pos h]
  refine ⟨hfail, ?_, ?_⟩
  · intro catalog i hne
    rw [FilterIntegrationsByTarget_eq_filter]
    simp only [List.mem_filter, decide_eq_true_eq, retainedByTarget]
    constructor
    · rintro ⟨hi, mr, hmr, r, hr, e⟩
      refine ⟨hi, mr, hmr, r, hr, ?_, e⟩
      intro hq
      exact hne mr hmr (e.trans (hfail r hq))
    · rintro ⟨hi, mr, hmr, r, hr, _, e⟩
      exact ⟨hi, mr, hmr, r, hr, e⟩
  · intro name hname
    rw [FindAssemblyRef, FindAssemblyRef_loop_eq]
    cases hf : (EnumAssemblyRefs ctx).find?
        (fun r => decide (GetAssemblyName kNameMaxSize ctx r = name)) with
    | none => left; rfl
    | some y =>
      right
      simp only [Option.getD_some]
      have hy : y ∈ EnumAssemblyRefs ctx := List.mem_of_find?_eq_some hf
      have hn : GetAssemblyName kNameMaxSize ctx y = name := by
        simpa using List.find?_some hf
      refine ⟨hy, hn, ?_⟩
      intro hq
      exact hname (hn.symm.trans (hfail y hq))

/-- C13 amended, on the references `["Newtonsoft.Json", "System.Data"]`: the
integration targeting `"System.Data"` is retained on account of the resolved
reference `0x23000002`, which is also what the lookup of that name returns. -/
theorem C13_unresolved_reference_never_matches_nonempty_witness :
    (exampleIntegration "I1" "" "System.Data"
        ∈ FilterIntegrationsByTarget 1024 [exampleIntegration "I1" "" "System.Data"]
            exampleReferences ↔
      exampleIntegration "I1" "" "System.Data" ∈ [exampleIntegration "I1" "" "System.Data"] ∧
      ∃ mr ∈ (exampleIntegration "I1" "" "System.Data").method_replacements,
        ∃ r ∈ EnumAssemblyRefs exampleReferences,
          ¬ queryFailed (exampleReferences.GetAssemblyRefProps r (ULONG_cast 1024)).hr
              (exampleReferences.GetAssemblyRefProps r (ULONG_cast 1024)).name_len ∧
          mr.target_method.assembly.name = GetAssemblyName 1024 exampleReferences r) ∧
    GetAssemblyName 1024 exampleUnresolvedReference 0x23000001 = [] :=
  ⟨(C13_unresolved_reference_never_matches_nonempty 1024 exampleReferences).2.1
      [exampleIntegration "I1" "" "System.Data"] (exampleIntegration "I1" "" "System.Data")
      (by decide),
   (C13_unresolved_reference_never_matches_nonempty 1024 exampleUnresolvedReference).1
      0x23000001 (by decide)⟩

/-! ## Module metadata cache -/

theorem step_is_attached (K : Nat) (rt : Runtime) (p : CorProfiler) (e : ModuleEvent) :
    (p.step K rt e).is_attached_ = p.is_attached_ := by
  cases e with
  | ModuleLoadFinished m hr =>
    simp only [CorProfiler.step, CorProfiler.ModuleLoadFinished]
    split <;> rfl
  | ModuleUnloadStarted m =>
    simp only [CorProfiler.step, CorProfiler.ModuleUnloadStarted]
    split <;> rfl
  | JITCompilationStarted f b => rfl

theorem step_lookup (K : Nat) (rt : Runtime) (p : CorProfiler) (e : ModuleEvent)
    (m : ModuleID) (hp : p.is_attached_ = true) :
    ((p.step K rt e).lookup m).isSome = currentlyLoaded m (p.lookup m).isSome [e] := by
  cases e with
  | ModuleLoadFinished m' hr =>
    simp only [CorProfiler.step, CorProfiler.ModuleLoadFinished, CorProfiler.lookup, hp,
      if_true, currentlyLoaded, List.foldl_cons, List.foldl_nil]
    by_cases h : m = m'
    · subst h; simp
    · have h' : ¬ m' = m := fun e => h e.symm
      simp [h, h']
  | ModuleUnloadStarted m' =>
    simp only [CorProfiler.step, CorProfiler.ModuleUnloadStarted, CorProfiler.lookup, hp,
      if_true, currentlyLoaded, List.foldl_cons, List.foldl_nil]
    by_cases h : m = m'
    · subst h; simp
    · have h' : ¬ m' = m := fun e => h e.symm
      simp [h, h']
  | JITCompilationStarted f b => rfl

theorem run_is_attached (K : Nat) (rt : Runtime) (p : CorProfiler) (events : List ModuleEvent) :
    (p.run K rt events).is_attached_ = p.is_attached_ := by
  induction events generalizing p with
  | nil => rfl
  | cons e es ih =>
    simp only [CorProfiler.run, List.foldl_cons] at ih ⊢
    rw [ih, step_is_attached]

theorem run_lookup (K : Nat) (rt : Runtime) (p : CorProfiler) (events : List ModuleEvent)
    (m : ModuleID) (hp : p.is_attached_ = true) :
    ((p.run K rt events).lookup m).isSome
      = currentlyLoaded m (p.lookup m).isSome events := by
  induction events generalizing p with
  | nil => rfl
  | cons e es ih =>
    have h1 := ih (p.step K rt e) (by rw [step_is_attached]; exact hp)
    have h2 := step_lookup K rt p e m hp
    simp only [CorProfiler.run, List.foldl_cons, currentlyLoaded, List.foldl_nil] at h1 h2 ⊢
    rw [h1, h2]

theorem run_not_attached (K : Nat) (rt : Runtime) (p : CorProfiler)
    (events : List ModuleEvent) (hp : p.is_attached_ = false) :
    p.run K rt events = p := by
  induction events with
  | nil => rfl
  | cons e es ih =>
    have hs : p.step K rt e = p := by
      cases e with
      | ModuleLoadFinished m hr =>
        simp [CorProfiler.step, CorProfiler.ModuleLoadFinished, hp]
      | ModuleUnloadStarted m =>
        simp [CorProfiler.step, CorProfiler.ModuleUnloadStarted, hp]
      | JITCompilationStarted f b => rfl
    simp only [CorProfiler.run, List.foldl_cons] at ih ⊢
    rw [hs]; exact ih

/-- C14, as stated, fails: in the initial state of the profiler, which is not
attached, and after an `Initialize` that failed, `ModuleLoadFinished(3)`
completes as a no-op, so the map has no entry for module 3 although no
`ModuleUnloadStarted(3)` followed.  On an attached profiler with an empty
catalog, the entry cached for module 4, which cannot be resolved, has the
contents of the default record. -/
theorem C14_not_attached_load_leaves_no_entry_counterexample :
    (default : CorProfiler).is_attached_ = false ∧
    currentlyLoaded 3 false [ModuleEvent.ModuleLoadFinished 3 0] = true ∧
    ((default : CorProfiler).run 1024 exampleRuntime
        [ModuleEvent.ModuleLoadFinished 3 0]).module_id_to_info_map_ 3 = none ∧
    (((default : CorProfiler).Initialize false
          [exampleIntegration "I1" "App.A" "System.Data"]).1.run 1024 exampleRuntime
        [ModuleEvent.ModuleLoadFinished 3 0]).module_id_to_info_map_ 3 = none ∧
    (((default : CorProfiler).Initialize true []).1.run 1024 exampleRuntime
        [ModuleEvent.ModuleLoadFinished 4 0]).lookup 4 = some default := by
  decide

/-- C14, amended: while the profiler is attached, after any sequence of module
callbacks the map has an entry for module `m` exactly when the latest
load-finished or unload-started callback for `m` is a load-finished (or, when
there is none, when it had an entry before); in particular, from the state a
successful `Initialize` leaves, exactly when a `ModuleLoadFinished(m)` has
completed with no later `ModuleUnloadStarted(m)`.  Right after
`ModuleLoadFinished(m)` the lookup of `m` returns the entry built from the
resolved module and the two catalog filters, and after a later
`ModuleUnloadStarted(m)` it returns none.  While the profiler is not attached
the callbacks leave the map as it is and every lookup returns none.  In the
example of the spec (catalog `[I1, I2]`, module 3 of assembly `"App.A"`
referencing `"System.Data"`) the cached integration set is `[I1]`. -/
theorem C14_module_cache_lifecycle :
    (∀ (kNameMaxSize : Nat) (runtime : Runtime) (catalog : List Integration)
        (events : List ModuleEvent) (m : ModuleID),
        ((((default : CorProfiler).Initialize true catalog).1.run kNameMaxSize runtime
            events).module_id_to_info_map_ m).isSome
          = currentlyLoaded m false events) ∧
    (∀ (kNameMaxSize : Nat) (runtime : Runtime) (catalog : List Integration)
        (events : List ModuleEvent) (m : ModuleID) (hr_status : HRESULT),
        ((((default : CorProfiler).Initialize true catalog).1.run kNameMaxSize runtime
            (events ++ [ModuleEvent.ModuleLoadFinished m hr_status])).lookup m).isSome
          = true) ∧
    (∀ (kNameMaxSize : Nat) (runtime : Runtime) (catalog : List Integration)
        (events later : List ModuleEvent) (m : ModuleID) (hr_status : HRESULT),
        (((default : CorProfiler).Initialize true catalog).1.run kNameMaxSize runtime
            (events ++ [ModuleEvent.ModuleLoadFinished m hr_status] ++ later ++
              [ModuleEvent.ModuleUnloadStarted m])).lookup m
          = none) ∧
    ((((default : CorProfiler).Initialize true
          [exampleIntegration "I1" "App.A" "System.Data",
           exampleIntegration "I2" "Other" "Foo"]).1.run 1024 exampleRuntime
        [ModuleEvent.ModuleLoadFinished 3 0]).lookup 3).map ModuleMetadata.integrations
      = some [exampleIntegration "I1" "App.A" "System.Data"] ∧
    (∀ (kNameMaxSize : Nat) (runtime : Runtime) (p : CorProfiler)
        (events : List ModuleEvent) (m : ModuleID), p.is_attached_ = true →
        (p.run kNameMaxSize runtime events).is_attached_ = true ∧
        ((p.run kNameMaxSize runtime events).module_id_to_info_map_ m).isSome
          = currentlyLoaded m (p.module_id_to_info_map_ m).isSome events) ∧
    (∀ (kNameMaxSize : Nat) (runtime : Runtime) (p : CorProfiler) (m : ModuleID)
        (hr_status : HRESULT), p.is_attached_ = true →
        (p.ModuleLoadFinished kNameMaxSize runtime m hr_status).1.lookup m
          = some
              { module_info := GetModuleInfo kNameMaxSize runtime.info m,
                assembly_info := (GetModuleInfo kNameMaxSize runtime.info m).assembly,
                integrations :=
                  FilterIntegrationsByTarget kNameMaxSize
                    (FilterIntegrationsByCaller p.integrations_
                      (GetModuleInfo kNameMaxSize runtime.info m).assembly.name)
                    (runtime.assembly_import m) }) ∧
    (∀ (p : CorProfiler) (m : ModuleID), p.is_attached_ = true →
        (p.ModuleUnloadStarted m).1.lookup m = none) ∧
    (∀ (kNameMaxSize : Nat) (runtime : Runtime) (p : CorProfiler)
        (events : List ModuleEvent) (m : ModuleID), p.is_attached_ = false →
        (p.run kNameMaxSize runtime events).module_id_to_info_map_ m
          = p.module_id_to_info_map_ m ∧
        (p.run kNameMaxSize runtime events).lookup m = none) := by
  have hinit : ∀ catalog : List Integration,
      ((default : CorProfiler).Initialize true catalog).1.is_attached_ = true := by
    intro catalog; rfl
  have hlook : ∀ (p : CorProfiler) (m : ModuleID), p.is_attached_ = true →
      p.lookup m = p.module_id_to_info_map_ m := by
    intro p m hp; simp [CorProfiler.lookup, hp]
  have hfold : ∀ (m : ModuleID) (b : Bool) (xs ys : List ModuleEvent),
      currentlyLoaded m b (xs ++ ys) = currentlyLoaded m (currentlyLoaded m b xs) ys := by
    intro m b xs ys; simp [currentlyLoaded, List.foldl_append]
  refine ⟨?_, ?_, ?_, by decide, ?_, ?_, ?_, ?_⟩
  · intro K rt catalog events m
    have h := run_lookup K rt _ events m (hinit catalog)
    rw [hlook _ m (by rw [run_is_attached]; exact hinit catalog)] at h
    rw [h]; rfl
  · intro K rt catalog events m hr
    rw [run_lookup K rt _ _ m (hinit catalog), hfold]
    simp [currentlyLoaded]
  · intro K rt catalog events later m hr
    have h := run_lookup K rt _
      (events ++ [ModuleEvent.ModuleLoadFinished m hr] ++ later ++
        [ModuleEvent.ModuleUnloadStarted m]) m (hinit catalog)
    rw [hfold] at h
    simp only [currentlyLoaded, List.foldl_cons, List.foldl_nil, if_true] at h
    exact Option.not_isSome_iff_eq_none.mp (by rw [h]; simp)
  · intro K rt p events m hp
    have ha : (p.run K rt events).is_attached_ = true := by
      rw [run_is_attached]; exact hp
    refine ⟨ha, ?_⟩
    have h := run_lookup K rt p events m hp
    rw [hlook _ m ha, hlook _ m hp] at h
    exact h
  · intro K rt p m hr hp
    simp [CorProfiler.lookup, CorProfiler.ModuleLoadFinished, hp]
  · intro p m hp
    simp [CorProfiler.lookup, CorProfiler.ModuleUnloadStarted, hp]
  · intro K rt p events m hp
    rw [run_not_attached K rt p events hp]
    exact ⟨rfl, by simp [CorProfiler.lookup, hp]⟩

/-- C14 amended, on the example runtime: on the attached profiler module 3 is
cached after its load and gone after its unload, with a compile-started
callback in between; on the initial, not attached profiler the same load
leaves the map empty. -/
theorem C14_module_cache_lifecycle_witness :
    (((default : CorProfiler).Initialize true []).1.run 1024 exampleRuntime
        [ModuleEvent.ModuleLoadFinished 3 0,
         ModuleEvent.JITCompilationStarted 1 true]).is_attached_ = true ∧
    ((((default : CorProfiler).Initialize true []).1.run 1024 exampleRuntime
        [ModuleEvent.ModuleLoadFinished 3 0,
         ModuleEvent.JITCompilationStarted 1 true]).module_id_to_info_map_ 3).isSome
      = true ∧
    ((default : CorProfiler).run 1024 exampleRuntime
        [ModuleEvent.ModuleLoadFinished 3 0]).lookup 3 = none :=
  ⟨(C14_module_cache_lifecycle.2.2.2.2.1 1024 exampleRuntime
      ((default : CorProfiler).Initialize true []).1
      [ModuleEvent.ModuleLoadFinished 3 0, ModuleEvent.JITCompilationStarted 1 true] 3
      rfl).1,
   ((C14_module_cache_lifecycle.2.2.2.2.1 1024 exampleRuntime
      ((default : CorProfiler).Initialize true []).1
      [ModuleEvent.ModuleLoadFinished 3 0, ModuleEvent.JITCompilationStarted 1 true] 3
      rfl).2).trans (by decide),
   (C14_module_cache_lifecycle.2.2.2.2.2.2.2 1024 exampleRuntime (default : CorProfiler)
      [ModuleEvent.ModuleLoadFinished 3 0] 3 rfl).2⟩

/-! ## Termination of the mutual recursion -/

/-- On a member-reference reported as its own parent no budget suffices. -/
theorem self_parent_exhausts (fuel : Nat) :
    GetFunctionInfo 1024 exampleImport fuel 0x0a000002 = none ∧
    GetTypeInfo 1024 exampleImport fuel 0x0a000002 = none := by
  have hm : isMemberToken 0x0a000002 := by decide
  have hq : ¬ queryFailed (memberProps 1024 exampleImport 0x0a000002).hr
      (memberProps 1024 exampleImport 0x0a000002).name_len := by decide
  have hp : (memberProps 1024 exampleImport 0x0a000002).parent_token = 0x0a000002 := by
    decide
  induction fuel with
  | zero => exact ⟨by rw [GetFunctionInfo], by rw [GetTypeInfo]⟩
  | succ n ih =>
    constructor
    · rw [GetFunctionInfo_member _ _ _ _ hm, if_neg hq, hp, ih.2]; rfl
    · rw [GetTypeInfo_member _ _ _ _ hm, ih.1]; rfl

/-- A token that is not a member token resolves with at most one query. -/
theorem GetTypeInfo_not_member (K : Nat) (mi : IMetaDataImport) (token : mdToken)
    (h : ¬ isMemberToken token) :
    ∃ t qs, (∀ fuel, GetTypeInfo K mi (fuel + 1) token = some (t, qs)) ∧ qs.length ≤ 1 := by
  have h1 : TypeFromToken token ≠ mdtMemberRef := fun e => h (Or.inl e)
  have h2 : TypeFromToken token ≠ mdtMethodDef := fun e => h (Or.inr e)
  by_cases h3 : TypeFromToken token = mdtTypeDef
  · by_cases hq : queryFailed (mi.GetTypeDefProps token (ULONG_cast K)).hr
        (mi.GetTypeDefProps token (ULONG_cast K)).name_len
    · exact ⟨_, _, fun fuel => by rw [GetTypeInfo_typeDef _ _ _ _ h3, if_pos hq], by simp⟩
    · exact ⟨_, _, fun fuel => by rw [GetTypeInfo_typeDef _ _ _ _ h3, if_neg hq], by simp⟩
  · by_cases h4 : TypeFromToken token = mdtTypeRef
    · by_cases hq : queryFailed (mi.GetTypeRefProps token (ULONG_cast K)).hr
          (mi.GetTypeRefProps token (ULONG_cast K)).name_len
      · exact ⟨_, _, fun fuel => by rw [GetTypeInfo_typeRef _ _ _ _ h4, if_pos hq], by simp⟩
      · exact ⟨_, _, fun fuel => by rw [GetTypeInfo_typeRef _ _ _ _ h4, if_neg hq], by simp⟩
    · by_cases h5 : TypeFromToken token = mdtModuleRef
      · exact ⟨_, _, fun fuel => GetTypeInfo_moduleRef _ _ _ _ h5, by simp⟩
      · exact ⟨_, _, fun fuel => GetTypeInfo_unhandled _ _ _ _ h1 h2 h3 h4 h5, by simp⟩

/-- Resolution along a chain of reported parents of depth `d`. -/
theorem resolve_along_chain (K : Nat) (mi : IMetaDataImport) (d : Nat) :
    ∀ token, parentChain K mi d token →
      (∃ f qs, (∀ fuel, 2 * d + 1 ≤ fuel → GetFunctionInfo K mi fuel token = some (f, qs)) ∧
        qs.length ≤ d + 1) ∧
      (∃ t qs, (∀ fuel, 2 * d + 2 ≤ fuel → GetTypeInfo K mi fuel token = some (t, qs)) ∧
        qs.length ≤ d + 1) := by
  have base : ∀ (n : Nat) (token : mdToken),
      (¬ isMemberToken token ∨
        (isMemberToken token ∧ queryFailed (memberProps K mi token).hr
          (memberProps K mi token).name_len)) →
      (∃ f qs, (∀ fuel, 2 * n + 1 ≤ fuel → GetFunctionInfo K mi fuel token = some (f, qs)) ∧
        qs.length ≤ n + 1) ∧
      (∃ t qs, (∀ fuel, 2 * n + 2 ≤ fuel → GetTypeInfo K mi fuel token = some (t, qs)) ∧
        qs.length ≤ n + 1) := by
    intro n token h
    rcases h with h | ⟨hm, hq⟩
    · constructor
      · refine ⟨default, [], ?_, by simp⟩
        intro fuel hf
        obtain ⟨k, rfl⟩ : ∃ k, fuel = k + 1 := ⟨fuel - 1, by omega⟩
        exact GetFunctionInfo_other _ _ _ _ h
      · obtain ⟨t, qs, ht, hl⟩ := GetTypeInfo_not_member K mi token h
        refine ⟨t, qs, ?_, by omega⟩
        intro fuel hf
        obtain ⟨k, rfl⟩ : ∃ k, fuel = k + 1 := ⟨fuel - 1, by omega⟩
        exact ht k
    · have hF : ∀ k, GetFunctionInfo K mi (k + 1) token
          = some (default, [memberQuery token]) := by
        intro k; rw [GetFunctionInfo_member _ _ _ _ hm, if_pos hq]
      constructor
      · refine ⟨default, [memberQuery token], ?_, by simp⟩
        intro fuel hf
        obtain ⟨k, rfl⟩ : ∃ k, fuel = k + 1 := ⟨fuel - 1, by omega⟩
        exact hF k
      · refine ⟨default, [memberQuery token], ?_, by simp⟩
        intro fuel hf
        obtain ⟨k, rfl⟩ : ∃ k, fuel = k + 2 := ⟨fuel - 2, by omega⟩
        rw [GetTypeInfo_member _ _ _ _ hm, hF]; rfl
  induction d with
  | zero =>
    intro token h
    apply base 0 token
    rcases h with h | h
    · exact Or.inl h
    · by_cases hm : isMemberToken token
      · exact Or.inr ⟨hm, h⟩
      · exact Or.inl hm
  | succ d ih =>
    intro token h
    by_cases hm : isMemberToken token
    · by_cases hq : queryFailed (memberProps K mi token).hr (memberProps K mi token).name_len
      · exact base (d + 1) token (Or.inr ⟨hm, hq⟩)
      · have hc : parentChain K mi d (memberProps K mi token).parent_token := by
          rcases h with h | h | h
          · exact absurd hm h
          · exact absurd h hq
          · exact h
        obtain ⟨_, t, qs, ht, hl⟩ := ih _ hc
        have hF : ∀ fuel, 2 * (d + 1) + 1 ≤ fuel →
            GetFunctionInfo K mi fuel token
              = some ({ id := token,
                        name := trimmed K (memberProps K mi token).written
                                  (memberProps K mi token).name_len,
                        type := t }, memberQuery token :: qs) := by
          intro fuel hf
          obtain ⟨k, rfl⟩ : ∃ k, fuel = k + 1 := ⟨fuel - 1, by omega⟩
          rw [GetFunctionInfo_member _ _ _ _ hm, if_neg hq, ht k (by omega)]; rfl
        constructor
        · exact ⟨_, _, hF, by simp; omega⟩
        · refine ⟨t, memberQuery token :: qs, ?_, by simp; omega⟩
          intro fuel hf
          obtain ⟨k, rfl⟩ : ∃ k, fuel = k + 1 := ⟨fuel - 1, by omega⟩
          rw [GetTypeInfo_member _ _ _ _ hm, hF k (by omega)]; rfl
    · exact base (d + 1) token (Or.inl hm)

/-- A chain that ends within `d` steps ends within `d + 1` steps. -/
theorem parentChain_succ (K : Nat) (mi : IMetaDataImport) (d : Nat) :
    ∀ token, parentChain K mi d token → parentChain K mi (d + 1) token := by
  induction d with
  | zero =>
    intro token h
    rcases h with h | h
    · exact Or.inl h
    · exact Or.inr (Or.inl h)
  | succ d ih =>
    intro token h
    rcases h with h | h | h
    · exact Or.inl h
    · exact Or.inr (Or.inl h)
    · exact Or.inr (Or.inr (ih _ h))

/-- A member token whose query succeeds and reports the token itself as its
parent is never resolved, whatever the budget. -/
theorem self_parent_never_returns (K : Nat) (mi : IMetaDataImport) (token : mdToken)
    (hm : isMemberToken token)
    (hq : ¬ queryFailed (memberProps K mi token).hr (memberProps K mi token).name_len)
    (hp : (memberProps K mi token).parent_token = token) (fuel : Nat) :
    GetFunctionInfo K mi fuel token = none ∧ GetTypeInfo K mi fuel token = none := by
  induction fuel with
  | zero => exact ⟨by rw [GetFunctionInfo], by rw [GetTypeInfo]⟩
  | succ n ih =>
    constructor
    · rw [GetFunctionInfo_member _ _ _ _ hm, if_neg hq, hp, ih.2]; rfl
    · rw [GetTypeInfo_member _ _ _ _ hm, ih.1]; rfl

/-- A resolution that returns within a budget has a parent chain that ends
within that many steps. -/
theorem chain_of_returns (K : Nat) (mi : IMetaDataImport) (fuel : Nat) :
    (∀ token v, GetFunctionInfo K mi fuel token = some v → parentChain K mi fuel token) ∧
    (∀ token v, GetTypeInfo K mi fuel token = some v → parentChain K mi fuel token) := by
  induction fuel with
  | zero =>
    constructor
    · intro token v h; rw [GetFunctionInfo] at h; cases h
    · intro token v h; rw [GetTypeInfo] at h; cases h
  | succ n ih =>
    obtain ⟨ihF, ihT⟩ := ih
    constructor
    · intro token v h
      by_cases hm : isMemberToken token
      · by_cases hq : queryFailed (memberProps K mi token).hr (memberProps K mi token).name_len
        · exact Or.inr (Or.inl hq)
        · rw [GetFunctionInfo_member _ _ _ _ hm, if_neg hq] at h
          cases hT : GetTypeInfo K mi n (memberProps K mi token).parent_token with
          | none => rw [hT] at h; cases h
          | some p => exact Or.inr (Or.inr (ihT _ p hT))
      · exact Or.inl hm
    · intro token v h
      by_cases hm : isMemberToken token
      · rw [GetTypeInfo_member _ _ _ _ hm] at h
        cases hF : GetFunctionInfo K mi n token with
        | none => rw [hF] at h; cases h
        | some p => exact parentChain_succ K mi n token (ihF _ p hF)
      · exact Or.inl hm

/-- C16, as stated, fails: on a surface that reports the member-reference
`0x0a000002` as its own parent, with a successful query, neither
`GetFunctionInfo` nor `GetTypeInfo` returns, whatever the recursion budget. -/
theorem C16_self_parent_never_returns_counterexample :
    TypeFromToken 0x0a000002 = mdtMemberRef ∧
    (exampleImport.GetMemberRefProps 0x0a000002 (ULONG_cast 1024)).parent_token = 0x0a000002 ∧
    (¬ ∃ f, FunctionResolvesTo 1024 exampleImport 0x0a000002 f) ∧
    (¬ ∃ t, TypeResolvesTo 1024 exampleImport 0x0a000002 t) := by
  refine ⟨by decide, by decide, ?_, ?_⟩
  · rintro ⟨f, fuel, h⟩
    rw [(self_parent_exhausts fuel).1] at h
    cases h
  · rintro ⟨t, fuel, h⟩
    rw [(self_parent_exhausts fuel).2] at h
    cases h

/-- C16, amended: when the chain of reported parents reaches, after at most
`d` steps, a token that is not a member token or a member token whose query
fails, `GetFunctionInfo` and `GetTypeInfo` return, with every recursion budget
from `2 * d + 2` on, after at most `d + 1` metadata queries.  The chain has
depth at most 2, hence at most 3 queries, on every surface that reports no
member token as the parent of a method-definition and no member-reference as
the parent of a member-reference.  The resolution of a token returns exactly
when its parent chain ends; in particular it never returns for a member token
whose query succeeds and reports the token itself as its parent. -/
theorem C16_resolution_bounded_by_parent_chain (kNameMaxSize : Nat)
    (metadata_import : IMetaDataImport) :
    (∀ d token, parentChain kNameMaxSize metadata_import d token →
      (∃ f qs,
        (∀ fuel, 2 * d + 1 ≤ fuel →
          GetFunctionInfo kNameMaxSize metadata_import fuel token = some (f, qs)) ∧
        qs.length ≤ d + 1) ∧
      (∃ t qs,
        (∀ fuel, 2 * d + 2 ≤ fuel →
          GetTypeInfo kNameMaxSize metadata_import fuel token = some (t, qs)) ∧
        qs.length ≤ d + 1)) ∧
    ((∀ token, TypeFromToken token = mdtMethodDef →
        ¬ isMemberToken
            (metadata_import.GetMemberProps token (ULONG_cast kNameMaxSize)).parent_token) →
      (∀ token, TypeFromToken token = mdtMemberRef →
        TypeFromToken
            (metadata_import.GetMemberRefProps token (ULONG_cast kNameMaxSize)).parent_token
          ≠ mdtMemberRef) →
      ∀ token, parentChain kNameMaxSize metadata_import 2 token) ∧
    (∀ token,
      ((∃ f, FunctionResolvesTo kNameMaxSize metadata_import token f) ↔
        ∃ d, parentChain kNameMaxSize metadata_import d token) ∧
      ((∃ t, TypeResolvesTo kNameMaxSize metadata_import token t) ↔
        ∃ d, parentChain kNameMaxSize metadata_import d token)) ∧
    (∀ token,
      TypeFromToken token = mdtMemberRef ∨ TypeFromToken token = mdtMethodDef →
      ¬ queryFailed (memberProps kNameMaxSize metadata_import token).hr
          (memberProps kNameMaxSize metadata_import token).name_len →
      (memberProps kNameMaxSize metadata_import token).parent_token = token →
      (¬ ∃ f, FunctionResolvesTo kNameMaxSize metadata_import token f) ∧
      (¬ ∃ t, TypeResolvesTo kNameMaxSize metadata_import token t)) ∧
    ((∀ token, TypeFromToken token = mdtMethodDef →
        ¬ isMemberToken
            (metadata_import.GetMemberProps token (ULONG_cast kNameMaxSize)).parent_token) →
      (∀ token, TypeFromToken token = mdtMemberRef →
        TypeFromToken
            (metadata_import.GetMemberRefProps token (ULONG_cast kNameMaxSize)).parent_token
          ≠ mdtMemberRef) →
      ∀ token,
        (∃ f qs,
          (∀ fuel, 5 ≤ fuel →
            GetFunctionInfo kNameMaxSize metadata_import fuel token = some (f, qs)) ∧
          qs.length ≤ 3) ∧
        (∃ t qs,
          (∀ fuel, 6 ≤ fuel →
            GetTypeInfo kNameMaxSize metadata_import fuel token = some (t, qs)) ∧
          qs.length ≤ 3)) := by
  have depth2 : (∀ token, TypeFromToken token = mdtMethodDef →
        ¬ isMemberToken
            (metadata_import.GetMemberProps token (ULONG_cast kNameMaxSize)).parent_token) →
      (∀ token, TypeFromToken token = mdtMemberRef →
        TypeFromToken
            (metadata_import.GetMemberRefProps token (ULONG_cast kNameMaxSize)).parent_token
          ≠ mdtMemberRef) →
      ∀ token, parentChain kNameMaxSize metadata_import 2 token := by
    intro hdef href token
    have hne : ¬ (mdtMethodDef = mdtMemberRef) := by decide
    have defChain : ∀ t, TypeFromToken t = mdtMethodDef →
        parentChain kNameMaxSize metadata_import 1 t := by
      intro t ht
      right; right; left
      have := hdef t ht
      simpa [memberProps, ht, hne] using this
    by_cases hm : isMemberToken token
    · rcases hm with hk | hk
      · -- member-reference: its parent is not a member-reference
        right; right
        have hp : (memberProps kNameMaxSize metadata_import token).parent_token
            = (metadata_import.GetMemberRefProps token
                (ULONG_cast kNameMaxSize)).parent_token := by
          simp [memberProps, hk]
        rw [hp]
        by_cases hd : TypeFromToken
            (metadata_import.GetMemberRefProps token (ULONG_cast kNameMaxSize)).parent_token
              = mdtMethodDef
        · exact defChain _ hd
        · left
          rintro (h | h)
          · exact href token hk h
          · exact hd h
      · exact parentChain_succ _ _ 1 token (defChain token hk)
    · exact Or.inl hm
  refine ⟨fun d => resolve_along_chain kNameMaxSize metadata_import d, depth2, ?_, ?_, ?_⟩
  · intro token
    constructor
    · constructor
      · rintro ⟨f, fuel, h⟩
        cases hF : GetFunctionInfo kNameMaxSize metadata_import fuel token with
        | none => rw [hF] at h; cases h
        | some v => exact ⟨fuel, (chain_of_returns _ _ fuel).1 token v hF⟩
      · rintro ⟨d, h⟩
        obtain ⟨⟨f, qs, hf, _⟩, _⟩ := resolve_along_chain kNameMaxSize metadata_import d token h
        exact ⟨f, 2 * d + 1, by rw [hf _ (Nat.le_refl _)]; rfl⟩
    · constructor
      · rintro ⟨t, fuel, h⟩
        cases hT : GetTypeInfo kNameMaxSize metadata_import fuel token with
        | none => rw [hT] at h; cases h
        | some v => exact ⟨fuel, (chain_of_returns _ _ fuel).2 token v hT⟩
      · rintro ⟨d, h⟩
        obtain ⟨_, t, qs, ht, _⟩ := resolve_along_chain kNameMaxSize metadata_import d token h
        exact ⟨t, 2 * d + 2, by rw [ht _ (Nat.le_refl _)]; rfl⟩
  · intro token hk hq hp
    constructor
    · rintro ⟨f, fuel, h⟩
      rw [(self_parent_never_returns _ _ token hk hq hp fuel).1] at h
      cases h
    · rintro ⟨t, fuel, h⟩
      rw [(self_parent_never_returns _ _ token hk hq hp fuel).2] at h
      cases h
  · intro hdef href token
    exact resolve_along_chain kNameMaxSize metadata_import 2 token (depth2 hdef href token)

/-- C16 amended, on the example import: the member-reference `0x0a000001`,
whose parent is a type-reference, resolves with two queries; the
member-reference `0x0a000002`, reported as its own parent by a successful
query, has no parent chain that ends. -/
theorem C16_resolution_bounded_by_parent_chain_witness :
    parentChain 1024 exampleImport 1 0x0a000001 ∧
    (∃ f qs,
      (∀ fuel, 2 * 1 + 1 ≤ fuel → GetFunctionInfo 1024 exampleImport fuel 0x0a000001
          = some (f, qs)) ∧
      qs.length ≤ 1 + 1) ∧
    (¬ ∃ d, parentChain 1024 exampleImport d 0x0a000002) :=
  ⟨by decide,
   ((C16_resolution_bounded_by_parent_chain 1024 exampleImport).1 1 0x0a000001
      (by decide)).1,
   fun h =>
     ((C16_resolution_bounded_by_parent_chain 1024 exampleImport).2.2.2.1 0x0a000002
        (by decide) (by decide) (by decide)).1
       ((((C16_resolution_bounded_by_parent_chain 1024 exampleImport).2.2.1
          0x0a000002).1).mpr h)⟩

/-! ## Bounds on the returned names -/

/-- C18: for a module-reference token `GetTypeInfo` returns the default
`TypeInfo` whatever `GetModuleRefProps` reports: the query is issued, but its
status is not stored, and the check sees the initial failing status. -/
theorem C18_module_ref_always_default (kNameMaxSize : Nat)
    (metadata_import : IMetaDataImport) (fuel : Nat) (token : mdToken)
    (hkind : TypeFromToken token = mdtModuleRef) :
    GetTypeInfo kNameMaxSize metadata_import (fuel + 1) token
      = some (default, [Query.GetModuleRefProps token]) := by
  -- the kind selects the module-reference case of the switch
  have h1 : ¬ (mdtModuleRef = mdtMemberRef) := by decide
  have h2 : ¬ (mdtModuleRef = mdtMethodDef) := by decide
  have h3 : ¬ (mdtModuleRef = mdtTypeDef) := by decide
  have h4 : ¬ (mdtModuleRef = mdtTypeRef) := by decide
  have h5 : ¬ (mdtModuleRef = mdtTypeSpec) := by decide
  rw [GetTypeInfo]
  simp only [hkind, h1, h2, h3, h4, h5, if_false, if_true]
  -- `hr` still holds its initial value -1, so the guard takes the failure branch
  have hfail : FAILED (-1) = true := by decide
  simp [Locals.init, hfail]

/-- C18 at the module-reference `0x1a000001`, whose query succeeds with the
name `"Mod"`. -/
theorem C18_module_ref_always_default_witness :
    (exampleImport.GetModuleRefProps 0x1a000001 (ULONG_cast 1024)).hr = 0 ∧
    (exampleImport.GetModuleRefProps 0x1a000001 (ULONG_cast 1024)).written
      = wstr "Mod" ++ [0] ∧
    (exampleImport.GetModuleRefProps 0x1a000001 (ULONG_cast 1024)).name_len.val = 4 ∧
    GetTypeInfo 1024 exampleImport 1 0x1a000001
      = some (default, [Query.GetModuleRefProps 0x1a000001]) :=
  ⟨by decide, by decide, by decide,
   C18_module_ref_always_default 1024 exampleImport 0 0x1a000001 (by decide)⟩

end trace

/-! ## `ClassFactory` reference counting -/

theorem INT_wrap_of_range (z : Int) (h1 : -2147483648 ≤ z) (h2 : z ≤ 2147483647) :
    INT_wrap z = z := by
  unfold INT_wrap; omega

theorem ULONG_of_int_of_nonneg (z : Int) (h1 : 0 ≤ z) (h2 : z ≤ 2147483647) :
    (ULONG_of_int z : Int) = z := by
  unfold ULONG_of_int
  rw [Int.toNat_of_nonneg (Int.emod_nonneg _ (by decide))]
  omega

/-- C19: the count is 0 at construction; `AddRef` stores and returns the
previous count plus 1, `Release` stores and returns the previous count minus 1
(the return value being the count converted to `ULONG`, which is the count
itself whenever it is not negative), so `AddRef` followed by `Release`
restores the count; `Release` deletes a live factory exactly when the
decremented count is `≤ 0`; `QueryInterface` adds exactly one to the count,
hands out the object and returns `S_OK` for `IID_IUnknown` and
`IID_IClassFactory`, and otherwise leaves the count unchanged, sets the output
pointer to null and returns `E_NOINTERFACE`.  Counts range over `int`. -/
theorem C19_class_factory_refcount_balanced :
    ClassFactory.new.refCount = 0 ∧
    (∀ f : ClassFactory, -2147483648 ≤ f.refCount → f.refCount < 2147483647 →
        (f.AddRef).1.refCount = f.refCount + 1 ∧
        (f.AddRef).1.deleted = f.deleted ∧
        (f.AddRef).2 = ULONG_of_int (f.refCount + 1) ∧
        (0 ≤ f.refCount + 1 → ((f.AddRef).2 : Int) = f.refCount + 1)) ∧
    (∀ f : ClassFactory, -2147483648 < f.refCount → f.refCount ≤ 2147483647 →
        (f.Release).1.refCount = f.refCount - 1 ∧
        (f.Release).2 = ULONG_of_int (f.refCount - 1) ∧
        (0 ≤ f.refCount - 1 → ((f.Release).2 : Int) = f.refCount - 1) ∧
        (f.deleted = false → ((f.Release).1.deleted = true ↔ f.refCount - 1 ≤ 0))) ∧
    (∀ f : ClassFactory, -2147483648 ≤ f.refCount → f.refCount < 2147483647 →
        ((f.AddRef).1.Release).1.refCount = f.refCount) ∧
    (∀ (f : ClassFactory) (riid : IID),
        -2147483648 ≤ f.refCount → f.refCount < 2147483647 →
        riid = IID_IUnknown ∨ riid = IID_IClassFactory →
        f.QueryInterface riid
          = ({ refCount := f.refCount + 1, deleted := f.deleted }, ObjectPointer.this,
             trace.S_OK)) ∧
    (∀ (f : ClassFactory) (riid : IID),
        riid ≠ IID_IUnknown → riid ≠ IID_IClassFactory →
        f.QueryInterface riid = (f, ObjectPointer.null, E_NOINTERFACE)) := by
  have hadd : ∀ f : ClassFactory, -2147483648 ≤ f.refCount → f.refCount < 2147483647 →
      f.AddRef = ({ refCount := f.refCount + 1, deleted := f.deleted },
                  ULONG_of_int (f.refCount + 1)) := by
    intro f h1 h2
    simp only [ClassFactory.AddRef]
    rw [INT_wrap_of_range _ (by omega) (by omega)]
  refine ⟨rfl, ?_, ?_, ?_, ?_, ?_⟩
  · intro f h1 h2
    rw [hadd f h1 h2]
    exact ⟨rfl, rfl, rfl, fun h0 => ULONG_of_int_of_nonneg _ h0 (by omega)⟩
  · intro f h1 h2
    have hw : INT_wrap (f.refCount - 1) = f.refCount - 1 :=
      INT_wrap_of_range _ (by omega) (by omega)
    have hrel : f.Release
        = (if f.refCount - 1 ≤ 0 then { refCount := f.refCount - 1, deleted := true }
           else { refCount := f.refCount - 1, deleted := f.deleted },
           ULONG_of_int (f.refCount - 1)) := by
      simp only [ClassFactory.Release, hw]
    rw [hrel]
    refine ⟨?_, rfl, fun h0 => ULONG_of_int_of_nonneg _ h0 (by omega), ?_⟩
    · show (if f.refCount - 1 ≤ 0 then ({ refCount := f.refCount - 1, deleted := true } :
        ClassFactory) else { refCount := f.refCount - 1, deleted := f.deleted }).refCount
          = f.refCount - 1
      split <;> rfl
    · intro hd
      show (if f.refCount - 1 ≤ 0 then ({ refCount := f.refCount - 1, deleted := true } :
        ClassFactory) else { refCount := f.refCount - 1, deleted := f.deleted }).deleted
          = true ↔ f.refCount - 1 ≤ 0
      split
      · rename_i hc; simp [hc]
      · rename_i hc; simp [hc, hd]
  · intro f h1 h2
    rw [hadd f h1 h2]
    simp only [ClassFactory.Release]
    have hw : INT_wrap (f.refCount + 1 - 1) = f.refCount := by
      rw [INT_wrap_of_range _ (by omega) (by omega)]; omega
    rw [hw]
    split <;> rfl
  · intro f riid h1 h2 hr
    simp only [ClassFactory.QueryInterface, hr, if_true]
    rw [hadd f h1 h2]
  · intro f riid hu hc
    simp [ClassFactory.QueryInterface, hu, hc]

/-- C19 on a fresh factory: `QueryInterface(IID_IUnknown)` gives count 1,
`AddRef` returns 2, `Release` returns 1 and keeps the factory, a second
`Release` returns 0 and deletes it; an unknown interface is refused. -/
theorem C19_class_factory_refcount_balanced_witness :
    ClassFactory.new.QueryInterface IID_IUnknown
      = ({ refCount := 1, deleted := false }, ObjectPointer.this, trace.S_OK) ∧
    (ClassFactory.AddRef { refCount := 1, deleted := false }).2 = 2 ∧
    ((ClassFactory.Release { refCount := 2, deleted := false }).2 : Int) = 2 - 1 ∧
    ((ClassFactory.Release { refCount := 1, deleted := false }).1.deleted = true ↔
      (1 : Int) - 1 ≤ 0) ∧
    ((ClassFactory.AddRef { refCount := 1, deleted := false }).1.Release).1.refCount = 1 ∧
    ClassFactory.new.QueryInterface 5 = (ClassFactory.new, ObjectPointer.null, E_NOINTERFACE) :=
  ⟨C19_class_factory_refcount_balanced.2.2.2.2.1 ClassFactory.new IID_IUnknown
      (by decide) (by decide) (Or.inl rfl),
   ((C19_class_factory_refcount_balanced.2.1 { refCount := 1, deleted := false }
      (by decide) (by decide)).2.2.1).trans (by decide),
   (C19_class_factory_refcount_balanced.2.2.1 { refCount := 2, deleted := false }
      (by decide) (by decide)).2.2.1 (by decide),
   (C19_class_factory_refcount_balanced.2.2.1 { refCount := 1, deleted := false }
      (by decide) (by decide)).2.2.2 rfl,
   C19_class_factory_refcount_balanced.2.2.2.1 { refCount := 1, deleted := false }
      (by decide) (by decide),
   C19_class_factory_refcount_balanced.2.2.2.2.2 ClassFactory.new 5 (by decide) (by decide)⟩
